import Mathlib

/-!
# Verification of the math-mcp expression core

A shallow embedding of the three-stage pipeline of the math-mcp repository
(`src/tokenizer.ts`, `src/grammar-parser.ts`, the AST evaluator in
`MathEvaluator`), together with theorems settling the behavioural claims
about it.

Modelling conventions:

* JavaScript numbers are IEEE-754 binary64 values.  We model the finite
  doubles as canonical pairs `⟨m, e⟩ : Dbl` (value `m * 2^e`, with
  `2^52 ≤ |m| < 2^53` for nonzero values), and every arithmetic operation
  rounds its exact rational result to the nearest double
  (round-to-nearest, ties-to-even) via `flFrac`, exactly as binary64
  arithmetic does.  Overflow to `Infinity`, `NaN` and negative zero are
  not modelled; no verified claim reaches them.
* Transcendental library routines (`Math.sin`, …) whose values are not
  exactly computable are abstracted as parameters of the evaluator
  (`MathPrims`); no verified claim depends on their values.
  `Math.sqrt` is correctly rounded by the IEEE standard and is modelled
  exactly (`dSqrt`).
* All loops and recursions of the interpreter are given explicit fuel;
  a run that exhausts its fuel is distinguished from every genuine
  outcome, so non-termination of the source loops is observable as
  `∀ fuel, out-of-fuel`.
-/

set_option maxRecDepth 1000000

namespace MathMcp

/-! ## Kernel-computable integer helpers -/

/-- Fuel-driven ⌊log₂⌋ on naturals (the fuel `n` itself always suffices). -/
def lg2go (fuel : Nat) (n : Nat) : Nat :=
  match fuel with
  | 0 => 0
  | f+1 => if 2 ≤ n then lg2go f (n / 2) + 1 else 0

/-- ⌊log₂ n⌋ for `1 ≤ n` (and `0` for `n = 0`). -/
def lg2 (n : Nat) : Nat := lg2go n n

/-- One descending step of a bitwise integer square root. -/
def isqrtGo (fuel : Nat) (A : Nat) (k : Nat) (r : Nat) : Nat :=
  match fuel with
  | 0 => r
  | f+1 =>
    let c := r + 2 ^ k
    let r' := if c * c ≤ A then c else r
    if k = 0 then r' else isqrtGo f A (k - 1) r'

/-- Integer square root: the largest `r` with `r * r ≤ A`. -/
def isqrt (A : Nat) : Nat :=
  let K := lg2 A / 2 + 1
  isqrtGo (K + 1) A K 0

/-! ## The binary64 model -/

/-- A finite IEEE-754 binary64 value `m * 2^e`.  Values produced by the
model are canonical: `m = e = 0`, or `2^52 ≤ |m| < 2^53`, so that
structural equality of representations coincides with value equality
(this mirrors `===` on JavaScript numbers, minus `NaN` and `-0`). -/
structure Dbl where
  m : Int
  e : Int
deriving DecidableEq, Repr

/-- The exact rational value of a modelled double. -/
def Dbl.toQ (d : Dbl) : ℚ := (d.m : ℚ) * 2 ^ d.e

/-- Decide `2^e ≤ P / q` for naturals `P, q > 0` by cross-shifting. -/
def shiftLe (q : Nat) (e : Int) (P : Nat) : Bool :=
  if 0 ≤ e then q * 2 ^ e.toNat ≤ P else q ≤ P * 2 ^ (-e).toNat

/-- The binade of `P / q` (for `P, q > 0`): the unique `e` with
`2^e ≤ P/q < 2^(e+1)`. -/
def binadeFrac (P q : Nat) : Int :=
  let e0 : Int := (lg2 P : Int) - (lg2 q : Int)
  if shiftLe q e0 P then e0 else e0 - 1

/-- Round the positive fraction `P / q` to the nearest binary64 value
(ties to even), returned as a canonical mantissa/exponent pair. -/
def flFracPos (P q : Nat) : Int × Int :=
  let e := binadeFrac P q
  let t : Int := 52 - e
  let N := P * 2 ^ t.toNat
  let Q := q * 2 ^ (-t).toNat
  let m0 := N / Q
  let r := N % Q
  let m : Nat :=
    if 2 * r < Q then m0
    else if Q < 2 * r then m0 + 1
    else if m0 % 2 = 0 then m0 else m0 + 1
  if m = 2 ^ 53 then ((2 ^ 52 : Nat), e - 51) else ((m : Int), e - 52)

/-- Round the rational `p / q` (`q > 0`) to the nearest binary64 value.
This is the single rounding primitive through which every modelled
JavaScript arithmetic result is produced. -/
def flFrac (p : Int) (q : Int) : Dbl :=
  if p = 0 ∨ q ≤ 0 then ⟨0, 0⟩
  else if 0 < p then
    let me := flFracPos p.toNat q.toNat
    ⟨me.1, me.2⟩
  else
    let me := flFracPos (-p).toNat q.toNat
    ⟨-me.1, me.2⟩

/-- View a dyadic value `S * 2^E` as an integer fraction. -/
def dyadicFrac (S : Int) (E : Int) : Int × Int :=
  if 0 ≤ E then (S * 2 ^ E.toNat, 1) else (S, (2 ^ (-E).toNat : Nat))

/-- Negation of a double (exact in binary64). -/
def dNeg (a : Dbl) : Dbl := ⟨-a.m, a.e⟩

/-- Binary64 addition: the exact sum, rounded once. -/
def dAdd (a b : Dbl) : Dbl :=
  let E := min a.e b.e
  let S := a.m * 2 ^ (a.e - E).toNat + b.m * 2 ^ (b.e - E).toNat
  let pq := dyadicFrac S E
  flFrac pq.1 pq.2

/-- Binary64 subtraction. -/
def dSub (a b : Dbl) : Dbl := dAdd a (dNeg b)

/-- Binary64 multiplication: the exact product, rounded once. -/
def dMul (a b : Dbl) : Dbl :=
  let pq := dyadicFrac (a.m * b.m) (a.e + b.e)
  flFrac pq.1 pq.2

/-- The quotient `a / b` as an integer fraction with positive denominator
(`b ≠ 0`). -/
def dRatio (a b : Dbl) : Int × Int :=
  let E := a.e - b.e
  let pq : Int × Int := if 0 ≤ E then (a.m * 2 ^ E.toNat, b.m) else (a.m, b.m * 2 ^ (-E).toNat)
  if pq.2 < 0 then (-pq.1, -pq.2) else pq

/-- Binary64 division (division by zero, which yields an infinity or
`NaN` in JavaScript, is collapsed to zero; no verified claim divides
by zero). -/
def dDiv (a b : Dbl) : Dbl :=
  if b.m = 0 then ⟨0, 0⟩
  else
    let pq := dRatio a b
    flFrac pq.1 pq.2

/-- Comparison `a ≤ b`, decided exactly by cross-shifting. -/
def dLe (a b : Dbl) : Bool :=
  let E := min a.e b.e
  a.m * 2 ^ (a.e - E).toNat ≤ b.m * 2 ^ (b.e - E).toNat

/-- Comparison `a < b`. -/
def dLt (a b : Dbl) : Bool :=
  let E := min a.e b.e
  a.m * 2 ^ (a.e - E).toNat < b.m * 2 ^ (b.e - E).toNat

/-- `Number.isInteger`: the double holds an integral value. -/
def dIsInt (d : Dbl) : Bool :=
  if d.m = 0 then true
  else if 0 ≤ d.e then true
  else d.m % ((2 ^ (-d.e).toNat : Nat) : Int) = 0

/-- The integral value of a double with nonnegative exponent
(used only after `dIsInt`-style guards on small values). -/
def dFloorInt (d : Dbl) : Int :=
  if 0 ≤ d.e then d.m * 2 ^ d.e.toNat else d.m.fdiv (2 ^ (-d.e).toNat)

/-- `Math.floor` (exact on binary64). -/
def dFloor (d : Dbl) : Dbl :=
  if 0 ≤ d.e then d else flFrac (d.m.fdiv (2 ^ (-d.e).toNat)) 1

/-- `Math.ceil` (exact on binary64). -/
def dCeil (d : Dbl) : Dbl :=
  if 0 ≤ d.e then d else flFrac (-((-d.m).fdiv (2 ^ (-d.e).toNat))) 1

/-- Truncation toward zero of the exact quotient `a / b` (`b ≠ 0`). -/
def dTruncRatio (a b : Dbl) : Int :=
  let pq := dRatio a b
  Int.tdiv pq.1 pq.2

/-- JavaScript `%`: remainder with the sign of the dividend
(exact on binary64; `b = 0` yields `NaN`, collapsed to zero here). -/
def dMod (a b : Dbl) : Dbl :=
  if b.m = 0 then ⟨0, 0⟩
  else
    let pq := dRatio a b
    let t := Int.tdiv pq.1 pq.2
    flFrac (pq.1 - t * pq.2) pq.2

/-- `Math.sqrt`, correctly rounded per IEEE-754 (negative arguments,
`NaN` in JavaScript, are collapsed to zero; no verified claim takes
the square root of a negative number). -/
def dSqrt (d : Dbl) : Dbl :=
  if d.m ≤ 0 then ⟨0, 0⟩
  else
    let b := d.e + 52
    let f := b.fdiv 2
    let u := d.e + 2 * (52 - f)
    let A := d.m.toNat * 2 ^ u.toNat
    let m0 := isqrt A
    let m : Nat :=
      if (2 * m0 + 1) * (2 * m0 + 1) ≤ 4 * A then m0 + 1 else m0
    if m = 2 ^ 53 then ⟨2 ^ 52, f - 51⟩ else ⟨(m : Int), f - 52⟩

/-- Lift an integer to a double (rounding if it exceeds 2^53). -/
def dOfInt (n : Int) : Dbl := flFrac n 1

/-- The double zero. -/
def dZero : Dbl := ⟨0, 0⟩

/-- Integer powers of a double, with both factors of the exact power
kept as an integer fraction and rounded once.  `Math.pow` is not
guaranteed correctly rounded by the standard; this model is exact for
the small integral cases the interpreter meets.  Exponents of huge
magnitude (which overflow to `0`/`Infinity` in JavaScript) are collapsed
to zero. -/
def dPowInt (a : Dbl) (n : Int) : Dbl :=
  if 2 ^ 20 < n.natAbs then ⟨0, 0⟩
  else if 0 ≤ n then
    let pq := dyadicFrac (a.m ^ n.toNat) (a.e * n)
    flFrac pq.1 pq.2
  else
    let pq := dyadicFrac (a.m ^ (-n).toNat) (a.e * (-n))
    let p' := if pq.1 < 0 then -1 else 1
    flFrac (p' * pq.2) (p' * pq.1)

/-! ## Tokenizer (`src/tokenizer.ts`)

A faithful port of the `Tokenizer` class: a cursor over the input
characters, line/column tracking, two-character operators matched
greedily, single quotes re-dispatched as the transpose operator when no
closing quote follows, whitespace dropped, newlines kept, and a final
synthetic `EOF` token.  The JavaScript `while` loops become fuel-driven
recursions; any actual input is tokenized with fuel `input.length + 1`. -/

inductive TokenType where
  | NUMBER | STRING | IDENTIFIER
  | PLUS | MINUS | MULTIPLY | DIVIDE | MODULO | POWER
  | ELEMENT_MULTIPLY | ELEMENT_DIVIDE | ELEMENT_MODULO | ELEMENT_POWER
  | AND | OR | NOT | LOGICAL_AND | LOGICAL_OR
  | EQUALS | NOT_EQUALS | LESS_THAN | LESS_EQUAL | GREATER_THAN | GREATER_EQUAL
  | LEFT_PAREN | RIGHT_PAREN | LEFT_BRACKET | RIGHT_BRACKET | LEFT_BRACE | RIGHT_BRACE
  | DOT | COMMA | COLON | SEMICOLON | QUESTION | ASSIGN | FACTORIAL | TRANSPOSE
  | NEWLINE | EOF | WHITESPACE
deriving DecidableEq, Repr

structure Token where
  type : TokenType
  value : String
  line : Nat
  column : Nat
deriving DecidableEq, Repr

/-- Tokenizer cursor state: the full input plus position and the
line/column counters. -/
structure TkState where
  input : List Char
  pos : Nat
  line : Nat
  col : Nat
deriving Repr

def TkState.atEnd (s : TkState) : Bool := s.input.length ≤ s.pos

def TkState.cur (s : TkState) : Char := s.input.getD s.pos ' '

/-- `advance()`: step one character, bumping the column counter. -/
def TkState.adv (s : TkState) : TkState :=
  { s with pos := s.pos + 1, col := s.col + 1 }

def isDigitCh (c : Char) : Bool := decide ('0' ≤ c) && decide (c ≤ '9')

def isLetterCh (c : Char) : Bool :=
  (decide ('a' ≤ c) && decide (c ≤ 'z')) || (decide ('A' ≤ c) && decide (c ≤ 'Z'))

/-- Greedy digit run (the integer/fraction/exponent digit loops of
`readNumber`). -/
def digitRun (fuel : Nat) (s : TkState) (acc : List Char) : List Char × TkState :=
  match fuel with
  | 0 => (acc, s)
  | f+1 =>
    if ¬ s.atEnd ∧ isDigitCh s.cur then digitRun f s.adv (acc ++ [s.cur])
    else (acc, s)

/-- `readNumber`: digits, optional `.` fraction, optional `e|E[+|-]` exponent. -/
def readNumber (fuel : Nat) (s0 : TkState) (line column : Nat) : Token × TkState :=
  let (v1, s1) := digitRun fuel s0 []
  let (v2, s2) :=
    if ¬ s1.atEnd ∧ s1.cur = '.' then digitRun fuel s1.adv (v1 ++ ['.'])
    else (v1, s1)
  let (v3, s3) :=
    if ¬ s2.atEnd ∧ (s2.cur = 'e' ∨ s2.cur = 'E') then
      let s' := s2.adv
      let v' := v2 ++ [s2.cur]
      let (v'', s'') :=
        if ¬ s'.atEnd ∧ (s'.cur = '+' ∨ s'.cur = '-') then (v' ++ [s'.cur], s'.adv)
        else (v', s')
      digitRun fuel s'' v''
    else (v2, s2)
  (⟨TokenType.NUMBER, String.mk v3, line, column⟩, s3)

/-- Keyword lookup (`and`, `or`, `not`). -/
def keywordType (v : String) : Option TokenType :=
  if v = "and" then some TokenType.AND
  else if v = "or" then some TokenType.OR
  else if v = "not" then some TokenType.NOT
  else none

/-- The identifier-character run of `readIdentifier`. -/
def identRun (fuel : Nat) (s : TkState) (acc : List Char) : List Char × TkState :=
  match fuel with
  | 0 => (acc, s)
  | f+1 =>
    if ¬ s.atEnd ∧ (isLetterCh s.cur ∨ isDigitCh s.cur ∨ s.cur = '_') then
      identRun f s.adv (acc ++ [s.cur])
    else (acc, s)

def readIdentifier (fuel : Nat) (s0 : TkState) (line column : Nat) : Token × TkState :=
  let (v, s1) := identRun fuel s0 []
  let str := String.mk v
  let tt := (keywordType str).getD TokenType.IDENTIFIER
  (⟨tt, str, line, column⟩, s1)

/-- The body loop of `readString`, handling backslash escapes; unknown
escapes pass the character through, and an unterminated string simply
stops at end of input. -/
def stringRun (fuel : Nat) (quote : Char) (s : TkState) (acc : List Char) :
    List Char × TkState :=
  match fuel with
  | 0 => (acc, s)
  | f+1 =>
    if ¬ s.atEnd ∧ s.cur ≠ quote then
      if s.cur = '\\' then
        let s' := s.adv
        if ¬ s'.atEnd then
          let esc := s'.cur
          let c :=
            if esc = 'n' then '\n'
            else if esc = 't' then '\t'
            else if esc = 'r' then '\r'
            else esc
          stringRun f quote s'.adv (acc ++ [c])
        else stringRun f quote s' acc
      else stringRun f quote s.adv (acc ++ [s.cur])
    else (acc, s)

def readString (fuel : Nat) (s0 : TkState) (line column : Nat) : Token × TkState :=
  let quote := s0.cur
  let (v, s1) := stringRun fuel quote s0.adv []
  let s2 := if ¬ s1.atEnd then s1.adv else s1
  (⟨TokenType.STRING, String.mk v, line, column⟩, s2)

/-- Two-character operator table (matched greedily before single
characters). -/
def twoCharType (a b : Char) : Option TokenType :=
  if a = '=' ∧ b = '=' then some TokenType.EQUALS
  else if a = '!' ∧ b = '=' then some TokenType.NOT_EQUALS
  else if a = '<' ∧ b = '=' then some TokenType.LESS_EQUAL
  else if a = '>' ∧ b = '=' then some TokenType.GREATER_EQUAL
  else if a = '&' ∧ b = '&' then some TokenType.LOGICAL_AND
  else if a = '|' ∧ b = '|' then some TokenType.LOGICAL_OR
  else if a = '.' ∧ b = '*' then some TokenType.ELEMENT_MULTIPLY
  else if a = '.' ∧ b = '/' then some TokenType.ELEMENT_DIVIDE
  else if a = '.' ∧ b = '%' then some TokenType.ELEMENT_MODULO
  else if a = '.' ∧ b = '^' then some TokenType.ELEMENT_POWER
  else none

def singleCharType (c : Char) : Option TokenType :=
  if c = '+' then some TokenType.PLUS
  else if c = '-' then some TokenType.MINUS
  else if c = '*' then some TokenType.MULTIPLY
  else if c = '/' then some TokenType.DIVIDE
  else if c = '%' then some TokenType.MODULO
  else if c = '^' then some TokenType.POWER
  else if c = '<' then some TokenType.LESS_THAN
  else if c = '>' then some TokenType.GREATER_THAN
  else if c = '(' then some TokenType.LEFT_PAREN
  else if c = ')' then some TokenType.RIGHT_PAREN
  else if c = '[' then some TokenType.LEFT_BRACKET
  else if c = ']' then some TokenType.RIGHT_BRACKET
  else if c = '{' then some TokenType.LEFT_BRACE
  else if c = '}' then some TokenType.RIGHT_BRACE
  else if c = '.' then some TokenType.DOT
  else if c = ',' then some TokenType.COMMA
  else if c = ':' then some TokenType.COLON
  else if c = ';' then some TokenType.SEMICOLON
  else if c = '?' then some TokenType.QUESTION
  else if c = '=' then some TokenType.ASSIGN
  else if c = '!' then some TokenType.FACTORIAL
  else if c = '\'' then some TokenType.TRANSPOSE
  else none

/-- A positive-notation digit rendering for error messages (stands in
for JavaScript template interpolation of numbers). -/
def natDigits (fuel : Nat) (n : Nat) (acc : List Char) : List Char :=
  match fuel with
  | 0 => acc
  | f+1 =>
    let d := Char.ofNat (48 + n % 10)
    if n < 10 then d :: acc else natDigits f (n / 10) (d :: acc)

def natToStr (n : Nat) : String := String.mk (natDigits (n + 1) n [])

/-- `readOperator`: greedy two-character match, then single characters;
an unclassifiable character raises the lexical error.  (The quotes that
the original message puts around the offending character are elided.) -/
def readOperator (s : TkState) (line column : Nat) : Except String (Token × TkState) :=
  let c := s.cur
  let next := if s.pos + 1 < s.input.length then s.input.getD (s.pos + 1) ' ' else ' '
  match twoCharType c next with
  | some tt => Except.ok (⟨tt, String.mk [c, next], line, column⟩, s.adv.adv)
  | none =>
    match singleCharType c with
    | some tt => Except.ok (⟨tt, String.mk [c], line, column⟩, s.adv)
    | none =>
      Except.error ("Unexpected character " ++ String.mk [c] ++ " at line "
        ++ natToStr line ++ ", column " ++ natToStr column)

/-- `nextToken`: dispatch on the current character (whitespace, newline,
number, identifier, string — with the unmatched-single-quote
re-dispatch — or operator). -/
def nextToken (fuel : Nat) (s : TkState) : Except String (Token × TkState) :=
  let startLine := s.line
  let startCol := s.col
  let c := s.cur
  if c = ' ' ∨ c = '\t' ∨ c = '\r' then
    Except.ok (⟨TokenType.WHITESPACE, String.mk [c], startLine, startCol⟩, s.adv)
  else if c = '\n' then
    let s' := s.adv
    Except.ok (⟨TokenType.NEWLINE, String.mk [c], startLine, startCol⟩,
      { s' with line := s'.line + 1, col := 1 })
  else if isDigitCh c then
    Except.ok (readNumber fuel s startLine startCol)
  else if isLetterCh c then
    Except.ok (readIdentifier fuel s startLine startCol)
  else if c = '"' ∨ c = '\'' then
    if c = '\'' ∧ ¬ ((s.input.drop (s.pos + 1)).contains '\'') then
      readOperator s startLine startCol
    else
      Except.ok (readString fuel s startLine startCol)
  else
    readOperator s startLine startCol

/-- The `tokenize` loop: emit tokens (dropping whitespace) until the end
of input. -/
def tokenizeGo (fuel : Nat) (s : TkState) (acc : List Token) :
    Except String (List Token × TkState) :=
  match fuel with
  | 0 => Except.error "Tokenizer fuel exhausted"
  | f+1 =>
    if s.atEnd then Except.ok (acc, s)
    else
      match nextToken fuel s with
      | Except.error e => Except.error e
      | Except.ok (t, s') =>
        if t.type = TokenType.WHITESPACE then tokenizeGo f s' acc
        else tokenizeGo f s' (acc ++ [t])

/-- `tokenize`: the token list with the synthetic trailing `EOF` token. -/
def tokenize (fuel : Nat) (input : List Char) : Except String (List Token) :=
  match tokenizeGo fuel ⟨input, 0, 1, 1⟩ [] with
  | Except.error e => Except.error e
  | Except.ok (ts, s) => Except.ok (ts ++ [⟨TokenType.EOF, "", s.line, s.col⟩])

/-! ## Number literals

`parsePrimary` converts a `NUMBER` token with `parseFloat`, which
rounds the exact decimal value of the literal to the nearest binary64
value.  The token text is always `digits [\x2e digits] [e|E [+|-] digits]`
(flexible about empty fraction and exponent digit runs, matching
`parseFloat`-style backtracking on such inputs). -/

def digitsToNat (l : List Char) : Nat :=
  l.foldl (fun acc c => 10 * acc + (c.toNat - 48)) 0

/-- Exact decimal value of a numeric literal, as an integer fraction
`(numerator, denominator)`. -/
def decimalFrac (l : List Char) : Int × Int :=
  let intPart := l.takeWhile isDigitCh
  let rest := l.drop intPart.length
  let fracPart :=
    if rest.headD ' ' = '.' then (rest.drop 1).takeWhile isDigitCh else []
  let rest2 := if rest.headD ' ' = '.' then rest.drop (1 + fracPart.length) else rest
  let expDigits :=
    if rest2.headD ' ' = 'e' ∨ rest2.headD ' ' = 'E' then
      let r := rest2.drop 1
      if r.headD ' ' = '+' ∨ r.headD ' ' = '-' then r.drop 1 |>.takeWhile isDigitCh
      else r.takeWhile isDigitCh
    else []
  let hasExp :=
    rest2.headD ' ' = 'e' ∨ rest2.headD ' ' = 'E'
  let expSign : Int :=
    if hasExp ∧ (rest2.drop 1).headD ' ' = '-' then -1 else 1
  let mantissa : Int := digitsToNat (intPart ++ fracPart)
  let exp10 : Int := expSign * digitsToNat expDigits - fracPart.length
  if 0 ≤ exp10 then (mantissa * 10 ^ exp10.toNat, 1)
  else (mantissa, (10 ^ (-exp10).toNat : Nat))

/-- `parseFloat` on a numeric token: the exact decimal value rounded to
binary64. -/
def parseFloatTok (v : String) : Dbl :=
  let pq := decimalFrac v.data
  flFrac pq.1 pq.2

/-! ## AST nodes (`src/types.ts`)

`ASTNode` in the source is one record type with optional fields, tagged
by `ASTNodeType`; we embed it as a sum with exactly the fields each
node kind populates.  (`POSTFIX_OP` is rendered as `POST_OP`; `end` is a
reserved word, so range/summation bound fields are `rstart`/`rend`
style binders.) -/

inductive ASTNode where
  | PROGRAM (children : List ASTNode)
  | NUMBER (value : Dbl)
  | STRING (value : String)
  | IDENTIFIER (value : String)
  | BINARY_OP (operator : String) (left right : ASTNode)
  | UNARY_OP (operator : String) (operand : ASTNode)
  | POST_OP (operator : String) (operand : ASTNode)
  | FUNCTION_CALL (callee : ASTNode) (arguments : List ASTNode)
  | ARRAY (elements : List ASTNode)
  | CONDITIONAL (condition consequent alternate : ASTNode)
  | ASSIGNMENT (left right : ASTNode)
  | UNIT_VALUE (operand : ASTNode) (unit : String)
  | RANGE (rstart rend : ASTNode) (step : Option ASTNode)
  | SUMMATION (svar sstart send expression : ASTNode)
deriving Repr

/-- The `.value` string of a node (`undefined`-style access collapses to
the empty string; the parser only reads it off identifiers). -/
def ASTNode.valueStr : ASTNode → String
  | .IDENTIFIER v => v
  | .STRING v => v
  | _ => ""

/-! ## Grammar parser (`src/grammar-parser.ts`)

A faithful port of the `GrammarParser` class.  The parser state is the
token list, cursor, accumulated error list and the range-disable depth;
JavaScript exceptions become the `EStateM` error channel (which keeps
the state at the throw point, as a caught JS exception observes the
mutated parser fields).  `this.error(msg)` both records a positioned
error and (usually) is thrown; `recordErr`/`throwErr` mirror the two
usages.  Every `while` loop and recursive descent call is fuel-driven;
fuel exhaustion is a plain throw, landing in the same catch-all as any
grammar violation.  Apostrophes that the original messages put around
expected lexemes are elided from the message texts. -/

structure ParseError where
  message : String
  line : Nat
  column : Nat
  token : Token
deriving DecidableEq, Repr

structure PState where
  tokens : List Token
  current : Nat
  errors : List ParseError
  rangeDisableDepth : Nat
deriving Repr

abbrev PM (α : Type) := EStateM String PState α

def eofTok : Token := ⟨TokenType.EOF, "", 1, 1⟩

/-- `peek()` with the out-of-bounds fallback token. -/
def peekP : PM Token :=
  fun s => EStateM.Result.ok (s.tokens.getD s.current eofTok) s

/-- `previous()` with the out-of-bounds fallback token. -/
def prevP : PM Token :=
  fun s => EStateM.Result.ok
    (if s.current = 0 then eofTok else s.tokens.getD (s.current - 1) eofTok) s

def isAtEndP : PM Bool := do
  pure ((← peekP).type = TokenType.EOF)

def advanceP : PM Token := do
  if !(← isAtEndP) then
    modify fun s => { s with current := s.current + 1 }
  prevP

def checkT (types : List TokenType) : PM Bool := do
  if ← isAtEndP then pure false
  else pure (types.contains (← peekP).type)

def tryMatch (types : List TokenType) : PM Bool := do
  if ← checkT types then
    let _ ← advanceP
    pure true
  else pure false

/-- `this.error(msg)`: push a positioned error (at `peek()`). -/
def recordErr (msg : String) : PM Unit :=
  fun s =>
    let t := s.tokens.getD s.current eofTok
    EStateM.Result.ok () { s with errors := s.errors ++ [⟨msg, t.line, t.column, t⟩] }

/-- `throw this.error(msg)`. -/
def throwErr {α : Type} (msg : String) : PM α := do
  recordErr msg
  throw msg

def consumeT (t : TokenType) (msg : String) : PM Token := do
  if ← checkT [t] then advanceP else throwErr msg

def parseIdentP : PM ASTNode := do
  let t ← consumeT TokenType.IDENTIFIER "Expected identifier"
  pure (ASTNode.IDENTIFIER t.value)

/-- The parameter-list skip in the assignment lookahead of
`parseStatement` (tracks nested parentheses). -/
def skipParams (fuel : Nat) (depth : Nat) : PM Unit :=
  match fuel with
  | 0 => throw "Parser fuel exhausted"
  | f+1 => do
    if !(← isAtEndP) && decide (0 < depth) then
      let d ← do
        if ← checkT [TokenType.LEFT_PAREN] then pure (depth + 1)
        else if ← checkT [TokenType.RIGHT_PAREN] then pure (depth - 1)
        else pure depth
      let _ ← advanceP
      skipParams f d
    else pure ()

/-- The `identifier(param, …)` trailer loop of `parseLValue`. -/
def lvalParamLoop (fuel : Nat) (acc : List ASTNode) : PM (List ASTNode) :=
  match fuel with
  | 0 => throw "Parser fuel exhausted"
  | f+1 => do
    if ← tryMatch [TokenType.COMMA] then
      let p ← parseIdentP
      lvalParamLoop f (acc ++ [p])
    else pure acc

def lvalLoop (fuel : Nat) (node : ASTNode) : PM ASTNode :=
  match fuel with
  | 0 => throw "Parser fuel exhausted"
  | f+1 => do
    if ← tryMatch [TokenType.LEFT_PAREN] then
      let params ← do
        if !(← checkT [TokenType.RIGHT_PAREN]) then
          let p ← parseIdentP
          lvalParamLoop f [p]
        else pure []
      let _ ← consumeT TokenType.RIGHT_PAREN "Expected ) after parameters"
      lvalLoop f (ASTNode.FUNCTION_CALL node params)
    else pure node

def parseLValue (fuel : Nat) : PM ASTNode := do
  let node ← parseIdentP
  lvalLoop fuel node

/-- The compound-unit loop of `parseUnit` (returns the built unit
string, which is all the callers read off the returned identifier
node). -/
def unitLoop (fuel : Nat) (acc : String) : PM String :=
  match fuel with
  | 0 => throw "Parser fuel exhausted"
  | f+1 => do
    if ← tryMatch [TokenType.MULTIPLY, TokenType.DIVIDE] then
      let op := (← prevP).value
      let t ← consumeT TokenType.IDENTIFIER "Expected unit identifier"
      unitLoop f (acc ++ op ++ t.value)
    else pure acc

def parseUnitP (fuel : Nat) : PM String := do
  let t ← consumeT TokenType.IDENTIFIER "Expected unit identifier"
  unitLoop fuel t.value

mutual

def parseExpression (fuel : Nat) : PM ASTNode :=
  match fuel with
  | 0 => throw "Parser fuel exhausted"
  | f+1 => parseConditional f
termination_by structural fuel

def parseConditional (fuel : Nat) : PM ASTNode :=
  match fuel with
  | 0 => throw "Parser fuel exhausted"
  | f+1 => do
    let expr ← parseLogicalOr f
    if ← tryMatch [TokenType.QUESTION] then
      modify fun s => { s with rangeDisableDepth := s.rangeDisableDepth + 1 }
      let consequent ← parseConditional f
      let _ ← consumeT TokenType.COLON "Expected : after conditional consequent"
      modify fun s => { s with rangeDisableDepth := s.rangeDisableDepth - 1 }
      let alternate ← parseConditional f
      pure (ASTNode.CONDITIONAL expr consequent alternate)
    else pure expr

def parseLogicalOr (fuel : Nat) : PM ASTNode :=
  match fuel with
  | 0 => throw "Parser fuel exhausted"
  | f+1 => do
    let expr ← parseLogicalAnd f
    orLoop f expr

def orLoop (fuel : Nat) (expr : ASTNode) : PM ASTNode :=
  match fuel with
  | 0 => throw "Parser fuel exhausted"
  | f+1 => do
    if ← tryMatch [TokenType.OR, TokenType.LOGICAL_OR] then
      let op := (← prevP).value
      let right ← parseLogicalAnd f
      orLoop f (ASTNode.BINARY_OP op expr right)
    else pure expr

def parseLogicalAnd (fuel : Nat) : PM ASTNode :=
  match fuel with
  | 0 => throw "Parser fuel exhausted"
  | f+1 => do
    let expr ← parseCompare f
    andLoop f expr

def andLoop (fuel : Nat) (expr : ASTNode) : PM ASTNode :=
  match fuel with
  | 0 => throw "Parser fuel exhausted"
  | f+1 => do
    if ← tryMatch [TokenType.AND, TokenType.LOGICAL_AND] then
      let op := (← prevP).value
      let right ← parseCompare f
      andLoop f (ASTNode.BINARY_OP op expr right)
    else pure expr

def parseCompare (fuel : Nat) : PM ASTNode :=
  match fuel with
  | 0 => throw "Parser fuel exhausted"
  | f+1 => do
    let expr ← parseRange f
    compareLoop f expr

def compareLoop (fuel : Nat) (expr : ASTNode) : PM ASTNode :=
  match fuel with
  | 0 => throw "Parser fuel exhausted"
  | f+1 => do
    if ← tryMatch [TokenType.EQUALS, TokenType.NOT_EQUALS, TokenType.LESS_THAN,
        TokenType.LESS_EQUAL, TokenType.GREATER_THAN, TokenType.GREATER_EQUAL] then
      let op := (← prevP).value
      let right ← parseRange f
      compareLoop f (ASTNode.BINARY_OP op expr right)
    else pure expr

def parseRange (fuel : Nat) : PM ASTNode :=
  match fuel with
  | 0 => throw "Parser fuel exhausted"
  | f+1 => do
    let expr ← parseAddSub f
    if decide (0 < (← get).rangeDisableDepth) then pure expr
    else if ← tryMatch [TokenType.COLON] then
      let e ← parseAddSub f
      let step ← do
        if ← tryMatch [TokenType.COLON] then
          let st ← parseAddSub f
          pure (some st)
        else pure none
      pure (ASTNode.RANGE expr e step)
    else pure expr

def parseAddSub (fuel : Nat) : PM ASTNode :=
  match fuel with
  | 0 => throw "Parser fuel exhausted"
  | f+1 => do
    let expr ← parseMulDiv f
    addSubLoop f expr

def addSubLoop (fuel : Nat) (expr : ASTNode) : PM ASTNode :=
  match fuel with
  | 0 => throw "Parser fuel exhausted"
  | f+1 => do
    if ← tryMatch [TokenType.PLUS, TokenType.MINUS] then
      let op := (← prevP).value
      let right ← parseMulDiv f
      addSubLoop f (ASTNode.BINARY_OP op expr right)
    else pure expr

def parseMulDiv (fuel : Nat) : PM ASTNode :=
  match fuel with
  | 0 => throw "Parser fuel exhausted"
  | f+1 => do
    let expr ← parsePow f
    mulDivLoop f expr

def mulDivLoop (fuel : Nat) (expr : ASTNode) : PM ASTNode :=
  match fuel with
  | 0 => throw "Parser fuel exhausted"
  | f+1 => do
    if ← tryMatch [TokenType.MULTIPLY, TokenType.DIVIDE, TokenType.MODULO,
        TokenType.ELEMENT_MULTIPLY, TokenType.ELEMENT_DIVIDE, TokenType.ELEMENT_MODULO] then
      let op := (← prevP).value
      let right ← parsePow f
      mulDivLoop f (ASTNode.BINARY_OP op expr right)
    else pure expr

def parsePow (fuel : Nat) : PM ASTNode :=
  match fuel with
  | 0 => throw "Parser fuel exhausted"
  | f+1 => do
    let expr ← parseUnary f
    if ← tryMatch [TokenType.POWER, TokenType.ELEMENT_POWER] then
      let op := (← prevP).value
      let right ← parsePow f
      pure (ASTNode.BINARY_OP op expr right)
    else pure expr

def parseUnary (fuel : Nat) : PM ASTNode :=
  match fuel with
  | 0 => throw "Parser fuel exhausted"
  | f+1 => do
    if ← tryMatch [TokenType.PLUS, TokenType.MINUS, TokenType.NOT, TokenType.FACTORIAL] then
      let op := (← prevP).value
      let s ← get
      let prevToken := if s.current < 2 then eofTok else s.tokens.getD (s.current - 2) eofTok
      if op = "+" ∧ prevToken.type = TokenType.PLUS then
        throwErr "Unexpected consecutive operator"
      else
        let operand ← parseUnary f
        pure (ASTNode.UNARY_OP (if op = "!" then "not" else op) operand)
    else parsePostOps f

def parsePostOps (fuel : Nat) : PM ASTNode :=
  match fuel with
  | 0 => throw "Parser fuel exhausted"
  | f+1 => do
    let expr ← parsePrimary f
    postOpLoop f expr

def postOpLoop (fuel : Nat) (expr : ASTNode) : PM ASTNode :=
  match fuel with
  | 0 => throw "Parser fuel exhausted"
  | f+1 => do
    if ← tryMatch [TokenType.FACTORIAL, TokenType.TRANSPOSE] then
      let op := (← prevP).value
      postOpLoop f (ASTNode.POST_OP op expr)
    else pure expr

def parsePrimary (fuel : Nat) : PM ASTNode :=
  match fuel with
  | 0 => throw "Parser fuel exhausted"
  | f+1 => do
    if ← tryMatch [TokenType.NUMBER] then
      let v := parseFloatTok (← prevP).value
      if ← checkT [TokenType.IDENTIFIER] then
        let unit ← parseUnitP f
        pure (ASTNode.UNIT_VALUE (ASTNode.NUMBER v) unit)
      else pure (ASTNode.NUMBER v)
    else if ← tryMatch [TokenType.STRING] then
      pure (ASTNode.STRING (← prevP).value)
    else if ← checkT [TokenType.IDENTIFIER] then
      let identifier ← parseIdentP
      if ← tryMatch [TokenType.LEFT_PAREN] then
        if identifier.valueStr = "sigma" then parseSummationCall f
        else
          let args ← do
            if !(← checkT [TokenType.RIGHT_PAREN]) then
              let a ← parseExpression f
              argLoop f [a]
            else pure []
          let _ ← consumeT TokenType.RIGHT_PAREN "Expected ) after arguments"
          pure (ASTNode.FUNCTION_CALL identifier args)
      else pure identifier
    else if ← tryMatch [TokenType.LEFT_BRACKET] then
      parseArrayP f
    else if ← tryMatch [TokenType.LEFT_PAREN] then
      let expr ← parseExpression f
      let _ ← consumeT TokenType.RIGHT_PAREN "Expected ) after expression"
      if ← checkT [TokenType.IDENTIFIER] then
        let unit ← parseUnitP f
        pure (ASTNode.UNIT_VALUE expr unit)
      else pure expr
    else throwErr "Expected expression"

def argLoop (fuel : Nat) (acc : List ASTNode) : PM (List ASTNode) :=
  match fuel with
  | 0 => throw "Parser fuel exhausted"
  | f+1 => do
    if ← tryMatch [TokenType.COMMA] then
      let a ← parseExpression f
      argLoop f (acc ++ [a])
    else pure acc

def parseArrayP (fuel : Nat) : PM ASTNode :=
  match fuel with
  | 0 => throw "Parser fuel exhausted"
  | f+1 => do
    let elements ← do
      if !(← checkT [TokenType.RIGHT_BRACKET]) then
        let e ← parseExpression f
        argLoop f [e]
      else pure []
    let _ ← consumeT TokenType.RIGHT_BRACKET "Expected ] after array elements"
    pure (ASTNode.ARRAY elements)

def parseSummationCall (fuel : Nat) : PM ASTNode :=
  match fuel with
  | 0 => throw "Parser fuel exhausted"
  | f+1 => do
    let svar ← parseIdentP
    let _ ← consumeT TokenType.COMMA "Expected , after summation variable"
    let start ← parseExpression f
    let _ ← consumeT TokenType.COMMA "Expected , after summation start"
    let e ← parseExpression f
    let _ ← consumeT TokenType.COMMA "Expected , after summation end"
    let expression ← parseExpression f
    let _ ← consumeT TokenType.RIGHT_PAREN "Expected ) after summation expression"
    pure (ASTNode.SUMMATION svar start e expression)

end

mutual

/-- `parseAssignment` (note: the missing-`=` throw is a bare `Error`,
not `this.error`, so it records nothing before unwinding). -/
def parseAssignment (fuel : Nat) : PM ASTNode :=
  match fuel with
  | 0 => throw "Parser fuel exhausted"
  | f+1 => do
    let lvalue ← parseLValue f
    if !(← tryMatch [TokenType.ASSIGN]) then
      throw "Expected assignment operator"
    else
      let expression ← parseAssignmentRHS f
      pure (ASTNode.ASSIGNMENT lvalue expression)

/-- `parseAssignmentRHS`: bounded lookahead for chained assignments. -/
def parseAssignmentRHS (fuel : Nat) : PM ASTNode :=
  match fuel with
  | 0 => throw "Parser fuel exhausted"
  | f+1 => do
    let checkpoint := (← get).current
    let chained ← do
      if ← checkT [TokenType.IDENTIFIER] then
        let _ ← advanceP
        checkT [TokenType.ASSIGN]
      else pure false
    modify fun s => { s with current := checkpoint }
    if chained then parseAssignment f else parseExpression f

end

/-- The assignment lookahead plus dispatch of `parseStatement`
(`identifier =` or `identifier ( … ) =`; the cursor is restored before
the real parse). -/
def parseStatement (fuel : Nat) : PM (Option ASTNode) :=
  match fuel with
  | 0 => throw "Parser fuel exhausted"
  | f+1 => do
    if ← isAtEndP then pure none
    else
      let checkpoint := (← get).current
      let isAssignment ← do
        if ← checkT [TokenType.IDENTIFIER] then
          let _ ← advanceP
          if ← checkT [TokenType.ASSIGN] then pure true
          else if ← checkT [TokenType.LEFT_PAREN] then
            let _ ← advanceP
            skipParams f 1
            checkT [TokenType.ASSIGN]
          else pure false
        else pure false
      modify fun s => { s with current := checkpoint }
      if isAssignment then
        let a ← parseAssignment f
        pure (some a)
      else
        let e ← parseExpression f
        pure (some e)

/-- The statement loop of `parseProgram` (the missing-separator error is
recorded but not thrown). -/
def programLoop (fuel : Nat) (stmts : List ASTNode) : PM (List ASTNode) :=
  match fuel with
  | 0 => throw "Parser fuel exhausted"
  | f+1 => do
    if ← isAtEndP then pure stmts
    else if ← tryMatch [TokenType.NEWLINE] then programLoop f stmts
    else
      let stmtO ← parseStatement f
      let stmts' := match stmtO with
        | some st => stmts ++ [st]
        | none => stmts
      if !(← isAtEndP) then
        if !(← tryMatch [TokenType.SEMICOLON, TokenType.NEWLINE]) then
          if !(← checkT [TokenType.EOF]) then
            recordErr "Expected semicolon or newline after statement"
      programLoop f stmts'

def parseProgram (fuel : Nat) : PM ASTNode := do
  let stmts ← programLoop fuel []
  pure (ASTNode.PROGRAM stmts)

/-- `parse(input) -> { isValid, errors, ast? }`.  (We model a fresh
parser instance per call; the class initializers give it empty token
and error lists.) -/
structure ValidationResult where
  isValid : Bool
  errors : List ParseError
  ast : Option ASTNode
deriving Repr

def parse (fuel : Nat) (input : String) : ValidationResult :=
  match tokenize fuel input.data with
  | Except.error msg =>
    { isValid := false, errors := [⟨msg, 1, 1, eofTok⟩], ast := none }
  | Except.ok tokens =>
    match parseProgram fuel ⟨tokens, 0, [], 0⟩ with
    | EStateM.Result.ok ast s =>
      { isValid := s.errors.isEmpty
        errors := s.errors
        ast := if s.errors.isEmpty then some ast else none }
    | EStateM.Result.error msg s =>
      let t := s.tokens.getD s.current eofTok
      { isValid := false, errors := s.errors ++ [⟨msg, t.line, t.column, t⟩], ast := none }

/-! ## Runtime values

Evaluator values are JavaScript numbers, strings, booleans, arrays and
`undefined`.  JavaScript `===` compares arrays by object identity, so
arrays carry an allocation tag `ref` drawn from a counter threaded
through the evaluator: every array the evaluator constructs is fresh,
and two values are `===`-equal exactly when `jsStrictEq` holds. -/

inductive Value where
  | num (d : Dbl)
  | str (s : String)
  | bool (b : Bool)
  | arr (ref : Nat) (elems : List Value)
  | undef

/-- JavaScript `typeof` names (arrays are `object`). -/
def typeofName : Value → String
  | .num _ => "number"
  | .str _ => "string"
  | .bool _ => "boolean"
  | .arr _ _ => "object"
  | .undef => "undefined"

/-- JavaScript truthiness (`ToBoolean`). -/
def truthy : Value → Bool
  | .num d => d.m ≠ 0
  | .str s => s ≠ ""
  | .bool b => b
  | .arr _ _ => true
  | .undef => false

/-- JavaScript strict equality `===`: value equality on primitives,
reference equality on arrays (`NaN` and `-0` aside, which the model
does not represent). -/
def jsStrictEq : Value → Value → Bool
  | .num a, .num b => a = b
  | .str a, .str b => a = b
  | .bool a, .bool b => a = b
  | .arr r1 _, .arr r2 _ => r1 = r2
  | .undef, .undef => true
  | _, _ => false

/-- JavaScript `ToNumber`, restricted to the cases the verified claims
exercise (numbers and booleans); string/array/undefined coercions
(which produce `NaN` or parsed values in JavaScript) are collapsed to
zero and are unreached by every claim. -/
def toNumber : Value → Dbl
  | .num d => d
  | .bool b => if b then flFrac 1 1 else ⟨0, 0⟩
  | _ => ⟨0, 0⟩

/-- Reference-erased values, for stating structural facts about
results. -/
inductive PValue where
  | num (d : Dbl)
  | str (s : String)
  | bool (b : Bool)
  | arr (elems : List PValue)
  | undef

/-- Reference erasure (fuel-driven over the nesting depth). -/
def plainV (fuel : Nat) (v : Value) : PValue :=
  match fuel with
  | 0 => .undef
  | f+1 =>
    match v with
    | .num d => .num d
    | .str s => .str s
    | .bool b => .bool b
    | .undef => .undef
    | .arr _ l => .arr (l.map (plainV f))

/-! ## Native math routines as parameters

`Math.sin` and friends are transcendental, not exactly computable, and
not even fully specified by ECMAScript (any implementation-defined
approximation is allowed).  The evaluator is therefore parametric in
them; no verified claim depends on their values.  `showVal` stands for
the JavaScript template-literal `ToString` used for unit formatting. -/

structure MathPrims where
  sin : Dbl → Dbl
  cos : Dbl → Dbl
  tan : Dbl → Dbl
  asin : Dbl → Dbl
  acos : Dbl → Dbl
  atan : Dbl → Dbl
  atan2 : Dbl → Dbl → Dbl
  sinh : Dbl → Dbl
  cosh : Dbl → Dbl
  tanh : Dbl → Dbl
  asinh : Dbl → Dbl
  acosh : Dbl → Dbl
  atanh : Dbl → Dbl
  log : Dbl → Dbl
  log10 : Dbl → Dbl
  log2 : Dbl → Dbl
  exp : Dbl → Dbl
  expm1 : Dbl → Dbl
  log1p : Dbl → Dbl
  cbrt : Dbl → Dbl
  powNI : Dbl → Dbl → Dbl
  showVal : Value → String

/-- A concrete instantiation for running closed programs (the stand-in
values are never observed by any verified claim). -/
def prims0 : MathPrims where
  sin := fun _ => ⟨0, 0⟩
  cos := fun _ => ⟨0, 0⟩
  tan := fun _ => ⟨0, 0⟩
  asin := fun _ => ⟨0, 0⟩
  acos := fun _ => ⟨0, 0⟩
  atan := fun _ => ⟨0, 0⟩
  atan2 := fun _ _ => ⟨0, 0⟩
  sinh := fun _ => ⟨0, 0⟩
  cosh := fun _ => ⟨0, 0⟩
  tanh := fun _ => ⟨0, 0⟩
  asinh := fun _ => ⟨0, 0⟩
  acosh := fun _ => ⟨0, 0⟩
  atanh := fun _ => ⟨0, 0⟩
  log := fun _ => ⟨0, 0⟩
  log10 := fun _ => ⟨0, 0⟩
  log2 := fun _ => ⟨0, 0⟩
  exp := fun _ => ⟨0, 0⟩
  expm1 := fun _ => ⟨0, 0⟩
  log1p := fun _ => ⟨0, 0⟩
  cbrt := fun _ => ⟨0, 0⟩
  powNI := fun _ _ => ⟨0, 0⟩
  showVal := fun _ => ""

/-! ## Evaluator context -/

inductive AngleMode where
  | radians | degrees
deriving DecidableEq, Repr

/-- The configuration fields the AST evaluator reads
(`maxExpressionLength`/`timeoutMs` only guard the out-of-scope
string/mathjs path). -/
structure Config where
  allowedFunctions : List String
  angleMode : AngleMode

/-- `DEFAULT_ALLOWED_FUNCTIONS` from `src/types.ts`. -/
def DEFAULT_ALLOWED_FUNCTIONS : List String :=
  ["sqrt", "cbrt", "abs", "sign", "ceil", "floor", "round",
   "sin", "cos", "tan", "asin", "acos", "atan", "atan2",
   "sinh", "cosh", "tanh", "asinh", "acosh", "atanh",
   "log", "log10", "log2", "exp", "expm1", "log1p",
   "min", "max", "mean", "median", "std", "var",
   "sum", "factorial", "gamma"]

def defaultConfig : Config := ⟨DEFAULT_ALLOWED_FUNCTIONS, AngleMode.radians⟩

/-- `Math.PI` (the binary64 value nearest π; the decimal below is far
within half an ulp of π, so one rounding lands on the same double). -/
def piD : Dbl :=
  flFrac 314159265358979323846264338327950288419716939937510 (10 ^ 50)

/-- `Math.E`. -/
def eD : Dbl :=
  flFrac 271828182845904523536028747135266249775724709369995 (10 ^ 50)

/-- The constants map built in the `MathEvaluator` constructor
(`tau` and `phi` are computed with JavaScript arithmetic). -/
def constantsList : List (String × Value) :=
  [("pi", Value.num piD),
   ("e", Value.num eD),
   ("tau", Value.num (dMul (dOfInt 2) piD)),
   ("phi", Value.num (dDiv (dAdd (dOfInt 1) (dSqrt (dOfInt 5))) (dOfInt 2))),
   ("true", Value.bool true),
   ("false", Value.bool false),
   ("cm", Value.str "cm")]

def lookupConst (name : String) : Option Value :=
  (constantsList.find? fun p => p.1 = name).map Prod.snd

/-- The mutable evaluator context: the variable `Map` (association list
in insertion order, like a JavaScript `Map`) plus the allocation
counter for array references. -/
structure EvalState where
  vars : List (String × Value)
  nextRef : Nat

/-- `Map.get`. -/
def getVar (s : EvalState) (name : String) : Option Value :=
  (s.vars.find? fun p => p.1 = name).map Prod.snd

/-- `Map.set`: replace in place, or append a new binding. -/
def setVarL (l : List (String × Value)) (name : String) (v : Value) :
    List (String × Value) :=
  match l with
  | [] => [(name, v)]
  | (k, w) :: t => if k = name then (k, v) :: t else (k, w) :: setVarL t name v

/-- `Map.delete`. -/
def delVarL (l : List (String × Value)) (name : String) : List (String × Value) :=
  match l with
  | [] => []
  | (k, w) :: t => if k = name then t else (k, w) :: delVarL t name

def setVarS (s : EvalState) (name : String) (v : Value) : EvalState :=
  { s with vars := setVarL s.vars name v }

def delVarS (s : EvalState) (name : String) : EvalState :=
  { s with vars := delVarL s.vars name }

/-- The `finally` block of `evaluateSummation`: restore the prior
binding, or delete the key if there was none. -/
def restoreVar (s : EvalState) (name : String) : Option Value → EvalState
  | some v => setVarS s name v
  | none => delVarS s name

inductive EvalErr where
  | thrown (msg : String)
  | noFuel
deriving DecidableEq, Repr

/-! ## Element-wise broadcasting (`MathEvaluator.elementWiseOperation`)

Fuel-driven recursion over the operand values (fuel only runs out on
inputs nested deeper than the supplied fuel, which adequate fuel rules
out); `ctr` threads the allocation counter for the freshly built
result arrays. -/

mutual

def elementWise (op : Dbl → Dbl → Dbl) (fuel : Nat) (l r : Value) (ctr : Nat) :
    (Except EvalErr Value) × Nat :=
  match fuel with
  | 0 => (Except.error EvalErr.noFuel, ctr)
  | f+1 =>
    match l, r with
    | .arr _ ls, .arr _ rs =>
      if ls.length ≠ rs.length then
        (Except.error (.thrown ("Array length mismatch: " ++ natToStr ls.length
          ++ " vs " ++ natToStr rs.length)), ctr)
      else
        match ewPairs op f ls rs ctr with
        | (Except.ok vs, c) => (Except.ok (Value.arr c vs), c + 1)
        | (Except.error e, c) => (Except.error e, c)
    | .arr _ ls, .num k =>
      match ewScalarR op f ls k ctr with
      | (Except.ok vs, c) => (Except.ok (Value.arr c vs), c + 1)
      | (Except.error e, c) => (Except.error e, c)
    | .num k, .arr _ rs =>
      match ewScalarL op f k rs ctr with
      | (Except.ok vs, c) => (Except.ok (Value.arr c vs), c + 1)
      | (Except.error e, c) => (Except.error e, c)
    | .num a, .num b => (Except.ok (Value.num (op a b)), ctr)
    | l, r =>
      (Except.error (.thrown ("Element-wise operations not supported for types: "
        ++ typeofName l ++ ", " ++ typeofName r)), ctr)
termination_by structural fuel

/-- The element pairs of an array-array broadcast: nested arrays
recurse, numeric pairs apply the operation, anything else is the
numeric-elements error. -/
def ewPairs (op : Dbl → Dbl → Dbl) (fuel : Nat) (ls rs : List Value) (ctr : Nat) :
    (Except EvalErr (List Value)) × Nat :=
  match fuel with
  | 0 => (Except.error EvalErr.noFuel, ctr)
  | f+1 =>
    match ls, rs with
    | a :: as', b :: bs =>
      let first :=
        match a, b with
        | .arr ra la, .arr rb lb => elementWise op f (.arr ra la) (.arr rb lb) ctr
        | .num x, .num y => (Except.ok (Value.num (op x y)), ctr)
        | _, _ =>
          (Except.error (.thrown "Element-wise operations require numeric elements"), ctr)
      match first with
      | (Except.ok v, c) =>
        match ewPairs op f as' bs c with
        | (Except.ok vs, c') => (Except.ok (v :: vs), c')
        | (Except.error e, c') => (Except.error e, c')
      | (Except.error e, c) => (Except.error e, c)
    | _, _ => (Except.ok [], ctr)
termination_by structural fuel

/-- Array-scalar broadcast (scalar on the right). -/
def ewScalarR (op : Dbl → Dbl → Dbl) (fuel : Nat) (ls : List Value) (k : Dbl) (ctr : Nat) :
    (Except EvalErr (List Value)) × Nat :=
  match fuel with
  | 0 => (Except.error EvalErr.noFuel, ctr)
  | f+1 =>
    match ls with
    | [] => (Except.ok [], ctr)
    | a :: as' =>
      let first :=
        match a with
        | .arr ra la => elementWise op f (.arr ra la) (.num k) ctr
        | .num x => (Except.ok (Value.num (op x k)), ctr)
        | _ =>
          (Except.error (.thrown "Element-wise operations require numeric elements"), ctr)
      match first with
      | (Except.ok v, c) =>
        match ewScalarR op f as' k c with
        | (Except.ok vs, c') => (Except.ok (v :: vs), c')
        | (Except.error e, c') => (Except.error e, c')
      | (Except.error e, c) => (Except.error e, c)
termination_by structural fuel

/-- Scalar-array broadcast (scalar on the left). -/
def ewScalarL (op : Dbl → Dbl → Dbl) (fuel : Nat) (k : Dbl) (rs : List Value) (ctr : Nat) :
    (Except EvalErr (List Value)) × Nat :=
  match fuel with
  | 0 => (Except.error EvalErr.noFuel, ctr)
  | f+1 =>
    match rs with
    | [] => (Except.ok [], ctr)
    | b :: bs =>
      let first :=
        match b with
        | .arr rb lb => elementWise op f (.num k) (.arr rb lb) ctr
        | .num y => (Except.ok (Value.num (op k y)), ctr)
        | _ =>
          (Except.error (.thrown "Element-wise operations require numeric elements"), ctr)
      match first with
      | (Except.ok v, c) =>
        match ewScalarL op f k bs c with
        | (Except.ok vs, c') => (Except.ok (v :: vs), c')
        | (Except.error e, c') => (Except.error e, c')
      | (Except.error e, c) => (Except.error e, c)
termination_by structural fuel

end

/-! ## Statistical helpers -/

/-- `flattenToNumbers`. -/
def flattenToNumbers (args : List Value) : Except String (List Dbl) :=
  match args with
  | [] => Except.ok []
  | .num d :: rest =>
    match flattenToNumbers rest with
    | Except.ok ds => Except.ok (d :: ds)
    | Except.error e => Except.error e
  | .arr _ l :: rest =>
    match flattenToNumbers l, flattenToNumbers rest with
    | Except.ok ds, Except.ok ds' => Except.ok (ds ++ ds')
    | Except.error e, _ => Except.error e
    | _, Except.error e => Except.error e
  | bad :: _ =>
    Except.error ("Statistical functions require numeric arguments, got: " ++ typeofName bad)

def dMin (a b : Dbl) : Dbl := if dLe a b then a else b

def dMax (a b : Dbl) : Dbl := if dLe a b then b else a

def dAbs (d : Dbl) : Dbl := ⟨|d.m|, d.e⟩

/-- `Math.sign`. -/
def dSign (d : Dbl) : Dbl :=
  if d.m = 0 then ⟨0, 0⟩ else if 0 < d.m then dOfInt 1 else dOfInt (-1)

/-- `Math.round`: ⌊x + 1/2⌋ on the exact value. -/
def dRound (d : Dbl) : Dbl :=
  if 0 ≤ d.e then d
  else flFrac ((d.m + ((2 ^ ((-d.e).toNat - 1) : Nat) : Int)).fdiv ((2 ^ (-d.e).toNat : Nat) : Int)) 1

/-- Ascending insertion used to model `values.sort((a, b) => a - b)`. -/
def insertAsc (d : Dbl) : List Dbl → List Dbl
  | [] => [d]
  | x :: xs => if dLe d x then d :: x :: xs else x :: insertAsc d xs

def sortAsc (l : List Dbl) : List Dbl := l.foldr insertAsc []

/-- `values.reduce((sum, val) => sum + val, 0)`. -/
def sumD (l : List Dbl) : Dbl := l.foldl dAdd ⟨0, 0⟩

/-- The `variance` method body (after flattening): sample variance with
the `N - 1` denominator; a single value has variance zero. -/
def varOfList (vs : List Dbl) : Except String Dbl :=
  match vs with
  | [] => Except.error "variance function requires at least one argument"
  | [_] => Except.ok ⟨0, 0⟩
  | _ =>
    let mean := dDiv (sumD vs) (dOfInt vs.length)
    let ssd := vs.foldl (fun acc v => dAdd acc (dPowInt (dSub v mean) 2)) ⟨0, 0⟩
    Except.ok (dDiv ssd (dOfInt (vs.length - 1)))

/-! ## Factorial, transpose, unary/postfix/binary operator helpers -/

/-- The iteration bound of the `factorial` loop (`i = 2; i <= n; i++`),
exact for the sub-2^53 range where the loop counter is exact. -/
def factIters (n : Dbl) : Nat :=
  ((dFloorInt (dFloor n)) - 1).toNat

def factLoop : Nat → Dbl → Dbl → Dbl → Dbl
  | 0, _, _, acc => acc
  | c+1, i, n, acc =>
    if dLe i n then factLoop c (dAdd i (dOfInt 1)) n (dMul acc i) else acc

/-- `MathEvaluator.factorial`. -/
def factD (n : Dbl) : Except String Dbl :=
  if dLt n ⟨0, 0⟩ then Except.error "Factorial of negative number"
  else if n = dOfInt 0 ∨ n = dOfInt 1 then Except.ok (dOfInt 1)
  else Except.ok (factLoop (factIters n) (dOfInt 2) n (dOfInt 1))

def isNumV : Value → Bool
  | .num _ => true
  | _ => false

def isArrV : Value → Bool
  | .arr _ _ => true
  | _ => false

def rowElems : Value → List Value
  | .arr _ l => l
  | _ => []

/-- `MathEvaluator.transpose`. -/
def transposeV (v : Value) (ctr : Nat) : (Except String Value) × Nat :=
  match v with
  | .num d => (Except.ok (.num d), ctr)
  | .arr ref l =>
    if l.isEmpty then (Except.ok (.arr ref l), ctr)
    else if l.all isNumV then
      let n := l.length
      let cols := (List.range n).zip l |>.map fun p => Value.arr (ctr + p.1) [p.2]
      (Except.ok (.arr (ctr + n) cols), ctr + n + 1)
    else if l.all isArrV then
      let rows := l.map rowElems
      let cols := (rows.headD []).length
      if ¬ rows.all (fun row => row.length = cols) then
        (Except.error "Matrix transpose requires all rows to have the same length", ctr)
      else if ¬ rows.all (fun row => row.all isNumV) then
        (Except.error "Matrix transpose requires all elements to be numbers", ctr)
      else
        let out := (List.range cols).map fun j =>
          Value.arr (ctr + j) (rows.map fun row => row.getD j Value.undef)
        (Except.ok (.arr (ctr + cols) out), ctr + cols + 1)
    else
      (Except.error "Transpose not supported for mixed arrays (some numbers, some arrays)", ctr)
  | other => (Except.error ("Transpose not supported for type: " ++ typeofName other), ctr)

/-- `evaluateUnaryOp` after the operand is evaluated. -/
def applyUnary (op : String) (v : Value) : Except String Value :=
  if op = "+" then Except.ok (.num (toNumber v))
  else if op = "-" then Except.ok (.num (dNeg (toNumber v)))
  else if op = "not" ∨ op = "!" then Except.ok (.bool (! truthy v))
  else Except.error ("Unsupported unary operator: " ++ op)

/-- `evaluatePostfixOp` after the operand is evaluated. -/
def applyPost (op : String) (v : Value) (ctr : Nat) : (Except String Value) × Nat :=
  if op = "!" then
    match v with
    | .num d =>
      if dLt d ⟨0, 0⟩ ∨ ¬ dIsInt d then
        (Except.error "Factorial requires a non-negative integer", ctr)
      else
        match factD d with
        | Except.ok r => (Except.ok (.num r), ctr)
        | Except.error e => (Except.error e, ctr)
    | _ => (Except.error "Factorial requires a non-negative integer", ctr)
  else if op = "'" then transposeV v ctr
  else (Except.error ("Unsupported postfix operator: " ++ op), ctr)

/-- `^` on scalars: `Math.pow` (exact integral exponents handled by
`dPowInt`, non-integral ones abstract). -/
def dPowOp (P : MathPrims) (a b : Dbl) : Dbl :=
  if dIsInt b then dPowInt a (dFloorInt b) else P.powNI a b

/-- Relational comparison (`< <= > >=`): numeric on numbers, lexical on
strings; other JavaScript coercion combinations (unreached by the
claims) are collapsed to `false`. -/
def jsCompare (lt : Bool) (strict : Bool) (l r : Value) : Bool :=
  match l, r with
  | .num a, .num b =>
    if lt then (if strict then dLt a b else dLe a b)
    else (if strict then dLt b a else dLe b a)
  | .str a, .str b =>
    if lt then (if strict then decide (a < b) else decide (a ≤ b))
    else (if strict then decide (b < a) else decide (b ≤ a))
  | _, _ => false

/-- `evaluateBinaryOp` after both operands are evaluated (`ctr` threads
the allocation counter used by broadcasting; `fuel` only feeds the
broadcast recursion). -/
def applyBinOp (P : MathPrims) (fuel : Nat) (op : String) (lv rv : Value) (ctr : Nat) :
    (Except EvalErr Value) × Nat :=
  if op = "*" then
    match lv, rv with
    | .num a, .str b => (Except.ok (.str (P.showVal (.num a) ++ " " ++ b)), ctr)
    | .str a, .num b => (Except.ok (.str (P.showVal (.num b) ++ " " ++ a)), ctr)
    | l, r =>
      if isArrV l ∨ isArrV r then elementWise dMul fuel l r ctr
      else (Except.ok (.num (dMul (toNumber l) (toNumber r))), ctr)
  else if op = "+" then
    if isArrV lv ∨ isArrV rv then elementWise dAdd fuel lv rv ctr
    else
      match lv, rv with
      | .str a, r => (Except.ok (.str (a ++ P.showVal r)), ctr)
      | l, .str b => (Except.ok (.str (P.showVal l ++ b)), ctr)
      | l, r => (Except.ok (.num (dAdd (toNumber l) (toNumber r))), ctr)
  else if op = "-" then
    if isArrV lv ∨ isArrV rv then elementWise dSub fuel lv rv ctr
    else (Except.ok (.num (dSub (toNumber lv) (toNumber rv))), ctr)
  else if op = "/" then
    if isArrV lv ∨ isArrV rv then elementWise dDiv fuel lv rv ctr
    else (Except.ok (.num (dDiv (toNumber lv) (toNumber rv))), ctr)
  else if op = "%" then
    if isArrV lv ∨ isArrV rv then elementWise dMod fuel lv rv ctr
    else (Except.ok (.num (dMod (toNumber lv) (toNumber rv))), ctr)
  else if op = "^" then
    if isArrV lv ∨ isArrV rv then elementWise (dPowOp P) fuel lv rv ctr
    else (Except.ok (.num (dPowOp P (toNumber lv) (toNumber rv))), ctr)
  else if op = "==" then (Except.ok (.bool (jsStrictEq lv rv)), ctr)
  else if op = "!=" then (Except.ok (.bool (! jsStrictEq lv rv)), ctr)
  else if op = "<" then (Except.ok (.bool (jsCompare true true lv rv)), ctr)
  else if op = "<=" then (Except.ok (.bool (jsCompare true false lv rv)), ctr)
  else if op = ">" then (Except.ok (.bool (jsCompare false true lv rv)), ctr)
  else if op = ">=" then (Except.ok (.bool (jsCompare false false lv rv)), ctr)
  else if op = "and" ∨ op = "&&" then
    (Except.ok (if truthy lv then rv else lv), ctr)
  else if op = "or" ∨ op = "||" then
    (Except.ok (if truthy lv then lv else rv), ctr)
  else if op = ".*" then elementWise dMul fuel lv rv ctr
  else if op = "./" then elementWise dDiv fuel lv rv ctr
  else if op = ".%" then elementWise dMod fuel lv rv ctr
  else if op = ".^" then elementWise (dPowOp P) fuel lv rv ctr
  else (Except.error (.thrown ("Unsupported binary operator: " ++ op)), ctr)

/-! ## The gamma function (Lanczos approximation, `MathEvaluator.gamma`)

The negative and `(0,1)` branches each recurse exactly once into the
`x ≥ 1` Lanczos core, so the recursion is unrolled here.  The decimal
coefficient literals of the source are binary64 constants. -/

def lanczosCoeffs : List Dbl :=
  [flFrac 99999999999980993 (10 ^ 17),
   flFrac 6765203681218851 (10 ^ 13),
   flFrac (-12591392167224028) (10 ^ 13),
   flFrac 77132342877765313 (10 ^ 14),
   flFrac (-17661502916214059) (10 ^ 14),
   flFrac 12507343278686905 (10 ^ 15),
   flFrac (-13857109526572012) (10 ^ 17),
   flFrac 99843695780195716 (10 ^ 22),
   flFrac 15056327351493116 (10 ^ 23)]

/-- The Lanczos series `result += c[i] / (x + i)` for `i = 1..8`
(after `x -= 1`). -/
def lanczosSum (x : Dbl) : Dbl :=
  ((lanczosCoeffs.drop 1).zip (List.range 8)).foldl
    (fun acc p => dAdd acc (dDiv p.1 (dAdd x (dOfInt (p.2 + 1)))))
    (lanczosCoeffs.headD ⟨0, 0⟩)

/-- The `x ≥ 1` core of `gamma`. -/
def gammaCore (P : MathPrims) (x : Dbl) : Dbl :=
  let x1 := dSub x (dOfInt 1)
  let result := lanczosSum x1
  let t := dAdd (dAdd x1 (dOfInt 7)) (flFrac 1 2)
  dMul (dMul (dMul (dSqrt (dMul (dOfInt 2) piD))
    (P.powNI t (dAdd x1 (flFrac 1 2)))) (P.exp (dNeg t))) result

/-- `gamma` without the reflection branch (`x ≥ 0`); `gamma(0)` is
`Infinity` in JavaScript, which the model cannot represent (collapsed
to zero, unreached by every claim). -/
def gammaBase (P : MathPrims) (x : Dbl) : Dbl :=
  if x = ⟨0, 0⟩ then ⟨0, 0⟩
  else if dLt x (dOfInt 1) then dDiv (gammaCore P (dAdd x (dOfInt 1))) x
  else gammaCore P x

def gammaD (P : MathPrims) (x : Dbl) : Dbl :=
  if dLt x ⟨0, 0⟩ then
    dDiv piD (dMul (P.sin (dMul piD x)) (gammaBase P (dSub (dOfInt 1) x)))
  else gammaBase P x

/-! ## Built-in function dispatch (`MathEvaluator.evaluateFunctionCall`
after the allow-list check) -/

/-- Angle-mode input conversion (`toRadians`). -/
def toRad (cfg : Config) (a : Dbl) : Dbl :=
  if cfg.angleMode = AngleMode.degrees then dMul a (dDiv piD (dOfInt 180)) else a

/-- Angle-mode output conversion (`fromRadians`). -/
def fromRad (cfg : Config) (a : Dbl) : Dbl :=
  if cfg.angleMode = AngleMode.degrees then dMul a (dDiv (dOfInt 180) piD) else a

def applyFunc (P : MathPrims) (cfg : Config) (name : String) (args : List Value) :
    Except String Value :=
  let a0 := args.getD 0 Value.undef
  let n0 := toNumber a0
  if name = "sqrt" then Except.ok (.num (dSqrt n0))
  else if name = "cbrt" then Except.ok (.num (P.cbrt n0))
  else if name = "abs" then Except.ok (.num (dAbs n0))
  else if name = "sign" then Except.ok (.num (dSign n0))
  else if name = "ceil" then Except.ok (.num (dCeil n0))
  else if name = "floor" then Except.ok (.num (dFloor n0))
  else if name = "round" then Except.ok (.num (dRound n0))
  else if name = "sin" then Except.ok (.num (P.sin (toRad cfg n0)))
  else if name = "cos" then Except.ok (.num (P.cos (toRad cfg n0)))
  else if name = "tan" then Except.ok (.num (P.tan (toRad cfg n0)))
  else if name = "asin" then Except.ok (.num (fromRad cfg (P.asin n0)))
  else if name = "acos" then Except.ok (.num (fromRad cfg (P.acos n0)))
  else if name = "atan" then Except.ok (.num (fromRad cfg (P.atan n0)))
  else if name = "atan2" then
    Except.ok (.num (fromRad cfg (P.atan2 n0 (toNumber (args.getD 1 Value.undef)))))
  else if name = "sinh" then Except.ok (.num (P.sinh n0))
  else if name = "cosh" then Except.ok (.num (P.cosh n0))
  else if name = "tanh" then Except.ok (.num (P.tanh n0))
  else if name = "asinh" then Except.ok (.num (P.asinh n0))
  else if name = "acosh" then Except.ok (.num (P.acosh n0))
  else if name = "atanh" then Except.ok (.num (P.atanh n0))
  else if name = "log" then Except.ok (.num (P.log n0))
  else if name = "log10" then Except.ok (.num (P.log10 n0))
  else if name = "log2" then Except.ok (.num (P.log2 n0))
  else if name = "exp" then Except.ok (.num (P.exp n0))
  else if name = "expm1" then Except.ok (.num (P.expm1 n0))
  else if name = "log1p" then Except.ok (.num (P.log1p n0))
  else if name = "min" then
    match flattenToNumbers args with
    | Except.error e => Except.error e
    | Except.ok [] => Except.error "min function requires at least one argument"
    | Except.ok (v :: vs) => Except.ok (.num (vs.foldl dMin v))
  else if name = "max" then
    match flattenToNumbers args with
    | Except.error e => Except.error e
    | Except.ok [] => Except.error "max function requires at least one argument"
    | Except.ok (v :: vs) => Except.ok (.num (vs.foldl dMax v))
  else if name = "mean" then
    match flattenToNumbers args with
    | Except.error e => Except.error e
    | Except.ok [] => Except.error "mean function requires at least one argument"
    | Except.ok vs => Except.ok (.num (dDiv (sumD vs) (dOfInt vs.length)))
  else if name = "median" then
    match flattenToNumbers args with
    | Except.error e => Except.error e
    | Except.ok [] => Except.error "median function requires at least one argument"
    | Except.ok vs =>
      let sorted := sortAsc vs
      let n := sorted.length
      if n % 2 = 0 then
        Except.ok (.num (dDiv (dAdd (sorted.getD (n / 2 - 1) ⟨0, 0⟩)
          (sorted.getD (n / 2) ⟨0, 0⟩)) (dOfInt 2)))
      else Except.ok (.num (sorted.getD (n / 2) ⟨0, 0⟩))
  else if name = "std" then
    match flattenToNumbers args with
    | Except.error e => Except.error e
    | Except.ok vs =>
      match varOfList vs with
      | Except.error e => Except.error e
      | Except.ok v => Except.ok (.num (dSqrt v))
  else if name = "var" then
    match flattenToNumbers args with
    | Except.error e => Except.error e
    | Except.ok vs =>
      match varOfList vs with
      | Except.error e => Except.error e
      | Except.ok v => Except.ok (.num v)
  else if name = "sum" then
    match flattenToNumbers args with
    | Except.error e => Except.error e
    | Except.ok vs => Except.ok (.num (sumD vs))
  else if name = "factorial" then
    match factD n0 with
    | Except.error e => Except.error e
    | Except.ok r => Except.ok (.num r)
  else if name = "gamma" then
    match a0 with
    | .num d => Except.ok (.num (gammaD P d))
    | _ => Except.error "gamma function requires a numeric argument"
  else Except.error ("Unknown function: " ++ name)

/-! ## The AST evaluator (`MathEvaluator.evaluateASTNode`)

Plain state-passing: every function returns the outcome together with
the (possibly mutated) context, matching the fact that a thrown
JavaScript exception leaves all mutations in place.  Fuel is consumed
at every delegation step; `EvalErr.noFuel` marks an aborted run that
has no JavaScript counterpart (the source loop simply keeps running). -/

abbrev EvalOut := Except EvalErr Value × EvalState

/-- The `RANGE` loop `for (let i = start; i <= end; i += step)` over
numeric operands; `none` is fuel exhaustion (the loop never exits). -/
def rangeLoop (fuel : Nat) (i endD stepD : Dbl) (acc : List Dbl) : Option (List Dbl) :=
  match fuel with
  | 0 => none
  | f+1 =>
    if dLe i endD then rangeLoop f (dAdd i stepD) endD stepD (acc ++ [i])
    else some acc

mutual

def eval (P : MathPrims) (cfg : Config) (fuel : Nat) (node : ASTNode)
    (s : EvalState) : EvalOut :=
  match fuel with
  | 0 => (Except.error EvalErr.noFuel, s)
  | f+1 =>
    match node with
    | .PROGRAM children =>
      if children.isEmpty then (Except.ok Value.undef, s)
      else progSeq P cfg f children Value.undef s
    | .NUMBER v => (Except.ok (.num v), s)
    | .STRING v => (Except.ok (.str v), s)
    | .IDENTIFIER name =>
      match lookupConst name with
      | some v => (Except.ok v, s)
      | none =>
        match getVar s name with
        | some v => (Except.ok v, s)
        | none => (Except.error (.thrown ("Undefined variable: " ++ name)), s)
    | .BINARY_OP op l r => evalBinary P cfg f op l r s
    | .UNARY_OP op o =>
      match eval P cfg f o s with
      | (Except.ok v, s1) =>
        match applyUnary op v with
        | Except.ok r => (Except.ok r, s1)
        | Except.error m => (Except.error (.thrown m), s1)
      | (Except.error e, s1) => (Except.error e, s1)
    | .POST_OP op o =>
      match eval P cfg f o s with
      | (Except.ok v, s1) =>
        match applyPost op v s1.nextRef with
        | (Except.ok r, c) => (Except.ok r, { s1 with nextRef := c })
        | (Except.error m, c) => (Except.error (.thrown m), { s1 with nextRef := c })
      | (Except.error e, s1) => (Except.error e, s1)
    | .FUNCTION_CALL callee args => evalCall P cfg f callee args s
    | .ARRAY elements =>
      match evalList P cfg f elements s with
      | (Except.ok vs, s1) =>
        (Except.ok (.arr s1.nextRef vs), { s1 with nextRef := s1.nextRef + 1 })
      | (Except.error e, s1) => (Except.error e, s1)
    | .CONDITIONAL c t e =>
      match eval P cfg f c s with
      | (Except.ok v, s1) =>
        if truthy v then eval P cfg f t s1 else eval P cfg f e s1
      | (Except.error err, s1) => (Except.error err, s1)
    | .ASSIGNMENT l r =>
      match eval P cfg f r s with
      | (Except.ok v, s1) =>
        match l with
        | .IDENTIFIER n => (Except.ok v, setVarS s1 n v)
        | _ => (Except.ok v, s1)
      | (Except.error e, s1) => (Except.error e, s1)
    | .UNIT_VALUE operand unit =>
      match eval P cfg f operand s with
      | (Except.ok v, s1) => (Except.ok (.str (P.showVal v ++ " " ++ unit)), s1)
      | (Except.error e, s1) => (Except.error e, s1)
    | .RANGE stNode enNode stepNode =>
      match eval P cfg f stNode s with
      | (Except.error e, s1) => (Except.error e, s1)
      | (Except.ok sv, s1) =>
        match eval P cfg f enNode s1 with
        | (Except.error e, s2) => (Except.error e, s2)
        | (Except.ok ev, s2) =>
          match stepNode with
          | some sn =>
            match eval P cfg f sn s2 with
            | (Except.error e, s3) => (Except.error e, s3)
            | (Except.ok pv, s3) => evalRangeLoop f sv ev pv s3
          | none => evalRangeLoop f sv ev (.num (dOfInt 1)) s2
    | .SUMMATION varNode stNode enNode body =>
      evalSummation P cfg f varNode stNode enNode body s

/-- Assemble the `RANGE` result once all operands are evaluated; the
JavaScript coercion antics of non-numeric bounds (which end the loop
with `NaN` comparisons) are collapsed to an empty result, unreached by
every claim. -/
def evalRangeLoop (fuel : Nat) (sv ev pv : Value) (s : EvalState) : EvalOut :=
  match sv, ev, pv with
  | .num sd, .num ed, .num pd =>
    match rangeLoop fuel sd ed pd [] with
    | some l =>
      (Except.ok (.arr s.nextRef (l.map Value.num)), { s with nextRef := s.nextRef + 1 })
    | none => (Except.error EvalErr.noFuel, s)
  | _, _, _ =>
    (Except.ok (.arr s.nextRef []), { s with nextRef := s.nextRef + 1 })

def evalBinary (P : MathPrims) (cfg : Config) (fuel : Nat) (op : String)
    (l r : ASTNode) (s : EvalState) : EvalOut :=
  match fuel with
  | 0 => (Except.error EvalErr.noFuel, s)
  | f+1 =>
    match eval P cfg f l s with
    | (Except.error e, s1) => (Except.error e, s1)
    | (Except.ok lv, s1) =>
      match eval P cfg f r s1 with
      | (Except.error e, s2) => (Except.error e, s2)
      | (Except.ok rv, s2) =>
        match applyBinOp P f op lv rv s2.nextRef with
        | (Except.ok v, c) => (Except.ok v, { s2 with nextRef := c })
        | (Except.error e, c) => (Except.error e, { s2 with nextRef := c })

def evalCall (P : MathPrims) (cfg : Config) (fuel : Nat) (callee : ASTNode)
    (args : List ASTNode) (s : EvalState) : EvalOut :=
  match fuel with
  | 0 => (Except.error EvalErr.noFuel, s)
  | f+1 =>
    let funcName := callee.valueStr
    match evalList P cfg f args s with
    | (Except.error e, s1) => (Except.error e, s1)
    | (Except.ok argv, s1) =>
      if ¬ cfg.allowedFunctions.contains funcName then
        (Except.error (.thrown ("Function not allowed: " ++ funcName)), s1)
      else
        match applyFunc P cfg funcName argv with
        | Except.ok v => (Except.ok v, s1)
        | Except.error m => (Except.error (.thrown m), s1)

def evalSummation (P : MathPrims) (cfg : Config) (fuel : Nat)
    (varNode stNode enNode body : ASTNode) (s : EvalState) : EvalOut :=
  match fuel with
  | 0 => (Except.error EvalErr.noFuel, s)
  | f+1 =>
    match eval P cfg f stNode s with
    | (Except.error e, s1) => (Except.error e, s1)
    | (Except.ok sv, s1) =>
      match eval P cfg f enNode s1 with
      | (Except.error e, s2) => (Except.error e, s2)
      | (Except.ok ev, s2) =>
        match sv, ev with
        | .num sd, .num ed =>
          if ¬ (dIsInt sd ∧ dIsInt ed) then
            (Except.error (.thrown "Summation bounds must be integers"), s2)
          else
            let varName := varNode.valueStr
            let orig := getVar s2 varName
            match sigmaLoop P cfg f sd ed varName body ⟨0, 0⟩ s2 with
            | (Except.ok sum, s3) => (Except.ok (.num sum), restoreVar s3 varName orig)
            | (Except.error e, s3) => (Except.error e, restoreVar s3 varName orig)
        | _, _ => (Except.error (.thrown "Summation bounds must be numbers"), s2)

def sigmaLoop (P : MathPrims) (cfg : Config) (fuel : Nat) (i endD : Dbl)
    (varName : String) (body : ASTNode) (acc : Dbl) (s : EvalState) :
    Except EvalErr Dbl × EvalState :=
  match fuel with
  | 0 => (Except.error EvalErr.noFuel, s)
  | f+1 =>
    if dLe i endD then
      let s' := setVarS s varName (.num i)
      match eval P cfg f body s' with
      | (Except.ok (.num t), s'') =>
        sigmaLoop P cfg f (dAdd i (dOfInt 1)) endD varName body (dAdd acc t) s''
      | (Except.ok v, s'') =>
        (Except.error (.thrown ("Summation expression must evaluate to a number, got: "
          ++ typeofName v)), s'')
      | (Except.error e, s'') => (Except.error e, s'')
    else (Except.ok acc, s)

def evalList (P : MathPrims) (cfg : Config) (fuel : Nat) (nodes : List ASTNode)
    (s : EvalState) : Except EvalErr (List Value) × EvalState :=
  match fuel with
  | 0 => (Except.error EvalErr.noFuel, s)
  | f+1 =>
    match nodes with
    | [] => (Except.ok [], s)
    | n :: ns =>
      match eval P cfg f n s with
      | (Except.error e, s1) => (Except.error e, s1)
      | (Except.ok v, s1) =>
        match evalList P cfg f ns s1 with
        | (Except.ok vs, s2) => (Except.ok (v :: vs), s2)
        | (Except.error e, s2) => (Except.error e, s2)

/-- The `PROGRAM` statement loop: evaluate each child, keep the last
result. -/
def progSeq (P : MathPrims) (cfg : Config) (fuel : Nat) (nodes : List ASTNode)
    (last : Value) (s : EvalState) : EvalOut :=
  match fuel with
  | 0 => (Except.error EvalErr.noFuel, s)
  | f+1 =>
    match nodes with
    | [] => (Except.ok last, s)
    | c :: cs =>
      match eval P cfg f c s with
      | (Except.ok v, s1) => progSeq P cfg f cs v s1
      | (Except.error e, s1) => (Except.error e, s1)

end

/-- `evaluateAST`: catch the thrown message into a structured failure
(`formatResult` is structurally the identity on these values).  Fuel
exhaustion has no JavaScript counterpart and is reported as a failure
without an error message. -/
structure EvaluationResult where
  success : Bool
  result : Option Value
  error : Option String

def evaluateAST (P : MathPrims) (cfg : Config) (fuel : Nat) (ast : ASTNode)
    (s : EvalState) : EvaluationResult × EvalState :=
  match eval P cfg fuel ast s with
  | (Except.ok v, s') => (⟨true, some v, none⟩, s')
  | (Except.error (.thrown m), s') => (⟨false, none, some m⟩, s')
  | (Except.error .noFuel, s') => (⟨false, none, none⟩, s')

/-- A fresh evaluator context (empty variable map). -/
def initState : EvalState := ⟨[], 0⟩

/-- `setVariable`. -/
def setVariable (s : EvalState) (name : String) (v : Value) : EvalState :=
  setVarS s name v

/-- Parse-then-evaluate convenience wrapper: the result of
`evaluator.evaluateAST(parser.parse(input).ast)` from a given starting
context, or `none` when parsing fails. -/
def runProgram (P : MathPrims) (cfg : Config) (fuel : Nat) (input : String)
    (s : EvalState) : Option (EvaluationResult × EvalState) :=
  match (parse fuel input).ast with
  | some ast => some (evaluateAST P cfg fuel ast s)
  | none => none

/-! ## Support definitions for the claims -/

/-- A context whose allow-list is restricted to `sqrt`. -/
def cfgOnlySqrt : Config := ⟨["sqrt"], AngleMode.radians⟩

/-- A context with an empty allow-list. -/
def cfgEmptyAllow (am : AngleMode) : Config := ⟨[], am⟩

/-- `noAssign n`: the subtree `n` contains no `ASSIGNMENT` node (true of
every expression produced by the grammar, whose assignments only occur
at statement level). -/
def noAssign (fuel : Nat) (n : ASTNode) : Bool :=
  match fuel with
  | 0 => false
  | f+1 =>
    match n with
    | .PROGRAM cs => cs.all (noAssign f)
    | .NUMBER _ => true
    | .STRING _ => true
    | .IDENTIFIER _ => true
    | .BINARY_OP _ l r => noAssign f l && noAssign f r
    | .UNARY_OP _ o => noAssign f o
    | .POST_OP _ o => noAssign f o
    | .FUNCTION_CALL c args => noAssign f c && args.all (noAssign f)
    | .ARRAY es => es.all (noAssign f)
    | .CONDITIONAL c t e => noAssign f c && noAssign f t && noAssign f e
    | .ASSIGNMENT _ _ => false
    | .UNIT_VALUE o _ => noAssign f o
    | .RANGE a b st =>
      noAssign f a && noAssign f b &&
        (match st with | some sn => noAssign f sn | none => true)
    | .SUMMATION v a b body =>
      noAssign f v && noAssign f a && noAssign f b && noAssign f body

/-- `callFree n`: no evaluated position of the subtree `n` contains a
`FUNCTION_CALL` node, so evaluation never consults the function
allow-list (an assignment's left side and a summation's variable node
are never evaluated). -/
def callFree (fuel : Nat) (n : ASTNode) : Bool :=
  match fuel with
  | 0 => false
  | f+1 =>
    match n with
    | .PROGRAM cs => cs.all (callFree f)
    | .NUMBER _ => true
    | .STRING _ => true
    | .IDENTIFIER _ => true
    | .BINARY_OP _ l r => callFree f l && callFree f r
    | .UNARY_OP _ o => callFree f o
    | .POST_OP _ o => callFree f o
    | .FUNCTION_CALL _ _ => false
    | .ARRAY es => es.all (callFree f)
    | .CONDITIONAL c t e => callFree f c && callFree f t && callFree f e
    | .ASSIGNMENT _ r => callFree f r
    | .UNIT_VALUE o _ => callFree f o
    | .RANGE a b st =>
      callFree f a && callFree f b &&
        (match st with | some sn => callFree f sn | none => true)
    | .SUMMATION _ a b body =>
      callFree f a && callFree f b && callFree f body

/-- The AST the parser produces for `sigma(i, 1, 3, i)`: a `SUMMATION`
node, not a `FUNCTION_CALL` named `sigma`. -/
def sigAst : ASTNode :=
  ASTNode.PROGRAM [ASTNode.SUMMATION (ASTNode.IDENTIFIER "i")
    (ASTNode.NUMBER (dOfInt 1)) (ASTNode.NUMBER (dOfInt 3))
    (ASTNode.IDENTIFIER "i")]

/-- The AST the parser produces for `1:2:0`: a range with explicit
step `0`. -/
def rangeStep0Ast : ASTNode :=
  ASTNode.PROGRAM [ASTNode.RANGE (ASTNode.NUMBER (dOfInt 1))
    (ASTNode.NUMBER (dOfInt 2)) (some (ASTNode.NUMBER ⟨0, 0⟩))]

/-! ## Theorems -/

/-- The binary64 value of the literal `0.3` (what the claimed exact
result `0.3` denotes bit-exactly). -/
theorem parseFloat_of_03 : parseFloatTok "0.3" = flFrac 3 10 := by rfl

/-- C1: the claim asserts that scalar arithmetic is routed through the
decimal-precision engine, making `0.1 + 0.2`, `1.4 * 3` and
`sqrt(2) * sqrt(2)` evaluate bit-exactly to `0.3`, `4.2` and `2`.  The
AST evaluator instead computes native binary64 arithmetic
(`left + right`, `left * right` in `evaluateBinaryOp`) and never calls
`PrecisionMath`, so the three programs evaluate to
`0.30000000000000004`, `4.199999999999999` and `2.0000000000000004` —
each distinct from the claimed exact value.  This contradicts the
repository's own documentation and its `precision.test.ts` assertions:
the code, not the claim, is at fault. -/
theorem c1_precision_engine_bypassed :
    ((runProgram prims0 defaultConfig 1000 "0.1 + 0.2" initState).map
        (fun p => p.1.result) = some (some (Value.num ⟨5404319552844596, -54⟩))
      ∧ (⟨5404319552844596, -54⟩ : Dbl) ≠ flFrac 3 10)
    ∧ ((runProgram prims0 defaultConfig 1000 "1.4 * 3" initState).map
        (fun p => p.1.result) = some (some (Value.num ⟨4728779608739020, -50⟩))
      ∧ (⟨4728779608739020, -50⟩ : Dbl) ≠ flFrac 42 10)
    ∧ ((runProgram prims0 defaultConfig 1000 "sqrt(2) * sqrt(2)" initState).map
        (fun p => p.1.result) = some (some (Value.num ⟨4503599627370497, -51⟩))
      ∧ (⟨4503599627370497, -51⟩ : Dbl) ≠ dOfInt 2) := by
  refine ⟨⟨by rfl, by decide⟩, ⟨by rfl, by decide⟩, ⟨by rfl, by decide⟩⟩

/-- C4: every function call is gated on the allow-list: the arguments
are evaluated, then a callee outside `allowedFunctions` throws
`Function not allowed`; an allowed callee dispatches to the named
built-in.  Concretely, with the allow-list restricted to `sqrt`,
`sin(0)` fails with `FunctionNotAllowed` while `sqrt(4)` still
evaluates to `2`. -/
theorem c4_function_allowlist :
    (∀ (P : MathPrims) (cfg : Config) (f : Nat) (callee : ASTNode)
      (args : List ASTNode) (s s1 : EvalState) (argv : List Value),
      evalList P cfg f args s = (Except.ok argv, s1) →
      cfg.allowedFunctions.contains callee.valueStr = false →
      evalCall P cfg (f+1) callee args s =
        (Except.error (.thrown ("Function not allowed: " ++ callee.valueStr)), s1))
    ∧ (∀ (P : MathPrims) (cfg : Config) (f : Nat) (callee : ASTNode)
      (args : List ASTNode) (s s1 : EvalState) (argv : List Value) (v : Value),
      evalList P cfg f args s = (Except.ok argv, s1) →
      cfg.allowedFunctions.contains callee.valueStr = true →
      applyFunc P cfg callee.valueStr argv = Except.ok v →
      evalCall P cfg (f+1) callee args s = (Except.ok v, s1))
    ∧ ((runProgram prims0 cfgOnlySqrt 1000 "sin(0)" initState).map
        (fun p => p.1.error) = some (some "Function not allowed: sin"))
    ∧ ((runProgram prims0 cfgOnlySqrt 1000 "sqrt(4)" initState).map
        (fun p => p.1.result) = some (some (Value.num (dOfInt 2)))) := by
  refine ⟨?_, ?_, by rfl, by rfl⟩
  · intro P cfg f callee args s s1 argv hargs hname
    simp only [evalCall, hargs, hname, Bool.false_eq_true, not_false_eq_true, if_pos]
  · intro P cfg f callee args s s1 argv v hargs hname happ
    have hmem : callee.valueStr ∈ cfg.allowedFunctions := by
      simpa using hname
    simp [evalCall, hargs, happ, hmem]

/-- C4 witness: the allow-list lemma applied to `sin(0)` under the
`sqrt`-only configuration. -/
theorem c4_witness :
    evalCall prims0 cfgOnlySqrt 1000 (ASTNode.IDENTIFIER "sin")
      [ASTNode.NUMBER ⟨0, 0⟩] initState =
      (Except.error (.thrown ("Function not allowed: " ++ "sin")), initState) :=
  c4_function_allowlist.1 prims0 cfgOnlySqrt 999 (ASTNode.IDENTIFIER "sin")
    [ASTNode.NUMBER ⟨0, 0⟩] initState initState [Value.num ⟨0, 0⟩] (by rfl) (by rfl)

/-- C7 counterexample: the claim says `==` decides *structural*
equality, so two separately constructed arrays with identical elements
compare equal; but `evaluateBinaryOp` uses JavaScript `===`, which is
reference equality on arrays, and `[1,2,3] == [1,2,3]` evaluates to
`false` (two fresh array objects). -/
theorem c7_counterexample :
    (runProgram prims0 defaultConfig 1000 "[1,2,3] == [1,2,3]" initState).map
      (fun p => p.1.result) = some (some (Value.bool false)) := by rfl

/-- C7 (amended): `==` and `!=` evaluate both sides (the right side in
the state left by the left side — no short-circuiting) and decide
JavaScript *strict* equality: value equality on numbers, strings and
booleans but *reference* equality on arrays, so two separately
constructed arrays with identical elements compare unequal. -/
theorem c7_strict_equality :
    (∀ (P : MathPrims) (cfg : Config) (f : Nat) (l r : ASTNode)
      (s s1 s2 : EvalState) (v1 v2 : Value),
      eval P cfg f l s = (Except.ok v1, s1) →
      eval P cfg f r s1 = (Except.ok v2, s2) →
      evalBinary P cfg (f+1) "==" l r s = (Except.ok (.bool (jsStrictEq v1 v2)), s2)
      ∧ evalBinary P cfg (f+1) "!=" l r s = (Except.ok (.bool (! jsStrictEq v1 v2)), s2))
    ∧ ((runProgram prims0 defaultConfig 1000 "[1,2,3] == [1,2,3]" initState).map
        (fun p => p.1.result) = some (some (Value.bool false)))
    ∧ ((runProgram prims0 defaultConfig 1000 "0.5 == 0.5" initState).map
        (fun p => p.1.result) = some (some (Value.bool true))) := by
  refine ⟨?_, by rfl, by rfl⟩
  intro P cfg f l r s s1 s2 v1 v2 hl hr
  constructor
  · simp [evalBinary, hl, hr, applyBinOp]
  · simp [evalBinary, hl, hr, applyBinOp]

/-- C7 witness: the strict-equality lemma applied to the two literals
of `1 == 2`. -/
theorem c7_witness :
    evalBinary prims0 defaultConfig 1000 "==" (ASTNode.NUMBER (dOfInt 1))
      (ASTNode.NUMBER (dOfInt 2)) initState =
      (Except.ok (.bool (jsStrictEq (.num (dOfInt 1)) (.num (dOfInt 2)))), initState) :=
  (c7_strict_equality.1 prims0 defaultConfig 999 (ASTNode.NUMBER (dOfInt 1))
    (ASTNode.NUMBER (dOfInt 2)) initState initState initState
    (.num (dOfInt 1)) (.num (dOfInt 2)) (by rfl) (by rfl)).1

/-- C10: an assignment whose left side is a function-call node (the
`f(params) = expr` function-definition form accepted by the statement
lookahead and `parseLValue`) evaluates exactly as its right-hand side:
the value is returned and no binding of `f` (or anything else) is
added by the assignment itself.  Concretely `f(x) = 2 + 3` parses to
such an assignment and evaluates to `5` leaving the variable map
empty. -/
theorem c10_function_definition_assignment :
    (∀ (P : MathPrims) (cfg : Config) (f : Nat) (c : ASTNode)
      (ps : List ASTNode) (r : ASTNode) (s : EvalState),
      eval P cfg (f+1) (ASTNode.ASSIGNMENT (ASTNode.FUNCTION_CALL c ps) r) s =
        eval P cfg f r s)
    ∧ ((parse 1000 "f(x) = 2 + 3").ast =
        some (ASTNode.PROGRAM [ASTNode.ASSIGNMENT
          (ASTNode.FUNCTION_CALL (ASTNode.IDENTIFIER "f") [ASTNode.IDENTIFIER "x"])
          (ASTNode.BINARY_OP "+" (ASTNode.NUMBER (dOfInt 2)) (ASTNode.NUMBER (dOfInt 3)))]))
    ∧ ((runProgram prims0 defaultConfig 1000 "f(x) = 2 + 3" initState).map
        (fun p => (p.1.result, p.2.vars)) = some (some (Value.num (dOfInt 5)), [])) := by
  refine ⟨?_, by rfl, by rfl⟩
  intro P cfg f c ps r s
  show (match eval P cfg f r s with
    | (Except.ok v, s1) => (Except.ok v, s1)
    | (Except.error e, s1) => (Except.error e, s1)) = eval P cfg f r s
  rcases h : eval P cfg f r s with ⟨res, s1⟩
  cases res <;> rfl

/-- C10 witness: the assignment lemma applied to the parsed
`f(x) = 2 + 3`. -/
theorem c10_witness :
    eval prims0 defaultConfig 1000
      (ASTNode.ASSIGNMENT
        (ASTNode.FUNCTION_CALL (ASTNode.IDENTIFIER "f") [ASTNode.IDENTIFIER "x"])
        (ASTNode.BINARY_OP "+" (ASTNode.NUMBER (dOfInt 2)) (ASTNode.NUMBER (dOfInt 3))))
      initState =
    eval prims0 defaultConfig 999
      (ASTNode.BINARY_OP "+" (ASTNode.NUMBER (dOfInt 2)) (ASTNode.NUMBER (dOfInt 3)))
      initState :=
  c10_function_definition_assignment.1 prims0 defaultConfig 999
    (ASTNode.IDENTIFIER "f") [ASTNode.IDENTIFIER "x"]
    (ASTNode.BINARY_OP "+" (ASTNode.NUMBER (dOfInt 2)) (ASTNode.NUMBER (dOfInt 3))) initState

/-- C5: the parser exposes an AST exactly when its error list is empty
(`isValid` is precisely emptiness of the error list), and the
malformed inputs `2 +`, `sin(` and `(2 + 3` each produce
`isValid = false` with a non-empty (positioned) error list and no
AST. -/
theorem c5_parser_ast_iff_no_errors :
    (∀ (fuel : Nat) (input : String),
      ((parse fuel input).ast.isSome ↔ (parse fuel input).errors = [])
      ∧ (parse fuel input).isValid = (parse fuel input).errors.isEmpty)
    ∧ ((parse 1000 "2 +").isValid = false ∧ (parse 1000 "2 +").errors ≠ []
        ∧ (parse 1000 "2 +").ast = none)
    ∧ ((parse 1000 "sin(").isValid = false ∧ (parse 1000 "sin(").errors ≠ []
        ∧ (parse 1000 "sin(").ast = none)
    ∧ ((parse 1000 "(2 + 3").isValid = false ∧ (parse 1000 "(2 + 3").errors ≠ []
        ∧ (parse 1000 "(2 + 3").ast = none) := by
  refine ⟨?_, ⟨by rfl, by decide, by rfl⟩, ⟨by rfl, by decide, by rfl⟩,
    ⟨by rfl, by decide, by rfl⟩⟩
  intro fuel input
  unfold parse
  cases htok : tokenize fuel input.data with
  | error m => simp
  | ok tokens =>
    cases hpp : parseProgram fuel ⟨tokens, 0, [], 0⟩ with
    | ok ast s =>
      by_cases h : s.errors.isEmpty
      · simp [hpp, h, List.isEmpty_iff.mp h]
      · have hne : s.errors ≠ [] := by
          intro hnil
          simp [hnil] at h
        simp [hpp, h, hne]
    | error msg s => simp [hpp]

/-- C5 witness: the invariant instantiated at a concrete valid and a
concrete invalid input. -/
theorem c5_witness :
    ((parse 1000 "1 + 2").ast.isSome ↔ (parse 1000 "1 + 2").errors = [])
    ∧ ((parse 1000 "2 +").ast.isSome ↔ (parse 1000 "2 +").errors = []) :=
  ⟨(c5_parser_ast_iff_no_errors.1 1000 "1 + 2").1,
   (c5_parser_ast_iff_no_errors.1 1000 "2 +").1⟩

/-- C8: summation over integer bounds: `sigma(i, 1, 5, i)` evaluates to
`15`, and whenever the evaluated bounds are integers with
`start > end` the loop body never runs and the summation returns the
sum `0` (with the loop variable restored), not an error. -/
theorem c8_summation_sum_and_empty_range :
    ((runProgram prims0 defaultConfig 1000 "sigma(i, 1, 5, i)" initState).map
        (fun p => p.1.result) = some (some (Value.num (dOfInt 15))))
    ∧ ((runProgram prims0 defaultConfig 1000 "sigma(i, 5, 1, i)" initState).map
        (fun p => p.1.result) = some (some (Value.num ⟨0, 0⟩)))
    ∧ (∀ (P : MathPrims) (cfg : Config) (f : Nat) (v st en body : ASTNode)
        (s s1 s2 : EvalState) (sd ed : Dbl),
        eval P cfg (f+1) st s = (Except.ok (.num sd), s1) →
        eval P cfg (f+1) en s1 = (Except.ok (.num ed), s2) →
        dIsInt sd = true → dIsInt ed = true → dLe sd ed = false →
        eval P cfg (f+3) (ASTNode.SUMMATION v st en body) s =
          (Except.ok (.num ⟨0, 0⟩),
            restoreVar s2 v.valueStr (getVar s2 v.valueStr))) := by
  refine ⟨by rfl, by rfl, ?_⟩
  intro P cfg f v st en body s s1 s2 sd ed hst hen hsd hed hle
  show evalSummation P cfg (f+2) v st en body s = _
  unfold evalSummation
  simp [hst, hen, hsd, hed]
  unfold sigmaLoop
  simp [hle]

/-- C8 witness: the empty-range lemma applied to
`sigma(i, 5, 1, i)` with literal bounds. -/
theorem c8_witness :
    eval prims0 defaultConfig 1000
      (ASTNode.SUMMATION (ASTNode.IDENTIFIER "i") (ASTNode.NUMBER (dOfInt 5))
        (ASTNode.NUMBER (dOfInt 1)) (ASTNode.IDENTIFIER "i")) initState =
      (Except.ok (.num ⟨0, 0⟩),
        restoreVar initState (ASTNode.IDENTIFIER "i").valueStr
          (getVar initState (ASTNode.IDENTIFIER "i").valueStr)) :=
  c8_summation_sum_and_empty_range.2.2 prims0 defaultConfig 997
    (ASTNode.IDENTIFIER "i") (ASTNode.NUMBER (dOfInt 5)) (ASTNode.NUMBER (dOfInt 1))
    (ASTNode.IDENTIFIER "i") initState initState initState (dOfInt 5) (dOfInt 1)
    (by rfl) (by rfl) (by rfl) (by rfl) (by rfl)

/-- Flat array-array broadcasting on numeric elements is the pointwise
zip of the operation. -/
theorem ewPairs_nums (op : Dbl → Dbl → Dbl) :
    ∀ (ds es : List Dbl) (f ctr : Nat), ds.length = es.length → ds.length < f →
    ewPairs op f (ds.map Value.num) (es.map Value.num) ctr =
      (Except.ok (List.zipWith (fun a b => Value.num (op a b)) ds es), ctr) := by
  intro ds
  induction ds with
  | nil =>
    intro es f ctr hlen hf
    have : es = [] := by
      cases es with
      | nil => rfl
      | cons e es' => simp at hlen
    subst this
    cases f with
    | zero => omega
    | succ g => rfl
  | cons d ds' ih =>
    intro es f ctr hlen hf
    cases es with
    | nil => simp at hlen
    | cons e es' =>
      cases f with
      | zero => omega
      | succ g =>
        have hlen' : ds'.length = es'.length := by simpa using hlen
        have hg : ds'.length < g := by
          simp at hf
          omega
        simp [ewPairs, ih es' g ctr hlen' hg]

/-- Flat array-scalar broadcasting (scalar on the right) maps the
operation over the elements. -/
theorem ewScalarR_nums (op : Dbl → Dbl → Dbl) :
    ∀ (ds : List Dbl) (k : Dbl) (f ctr : Nat), ds.length < f →
    ewScalarR op f (ds.map Value.num) k ctr =
      (Except.ok (ds.map fun a => Value.num (op a k)), ctr) := by
  intro ds
  induction ds with
  | nil =>
    intro k f ctr hf
    cases f with
    | zero => omega
    | succ g => rfl
  | cons d ds' ih =>
    intro k f ctr hf
    cases f with
    | zero => omega
    | succ g =>
      have hg : ds'.length < g := by
        simp at hf
        omega
      simp [ewScalarR, ih k g ctr hg]

/-- Flat scalar-array broadcasting (scalar on the left). -/
theorem ewScalarL_nums (op : Dbl → Dbl → Dbl) :
    ∀ (es : List Dbl) (k : Dbl) (f ctr : Nat), es.length < f →
    ewScalarL op f k (es.map Value.num) ctr =
      (Except.ok (es.map fun b => Value.num (op k b)), ctr) := by
  intro es
  induction es with
  | nil =>
    intro k f ctr hf
    cases f with
    | zero => omega
    | succ g => rfl
  | cons e es' ih =>
    intro k f ctr hf
    cases f with
    | zero => omega
    | succ g =>
      have hg : es'.length < g := by
        simp at hf
        omega
      simp [ewScalarL, ih k g ctr hg]

/-- C3: binary arithmetic with an array operand broadcasts element-wise:
array-array operands of unequal length fail with the
`Array length mismatch` error (at any nesting level, as the nested
concrete case shows); equal-length numeric arrays combine pointwise; a
scalar is broadcast over an array on either side.  Concretely
`[1,2,3] .* [4,5,6]` gives `[4,10,18]` and `[1,2] .* [4,5,6]` fails
with the mismatch error. -/
theorem c3_elementwise_broadcast :
    (∀ (op : Dbl → Dbl → Dbl) (f : Nat) (r r' : Nat) (ls rs : List Value) (ctr : Nat),
      ls.length ≠ rs.length →
      elementWise op (f+1) (.arr r ls) (.arr r' rs) ctr =
        (Except.error (.thrown ("Array length mismatch: " ++ natToStr ls.length
          ++ " vs " ++ natToStr rs.length)), ctr))
    ∧ (∀ (op : Dbl → Dbl → Dbl) (f : Nat) (r r' : Nat) (ds es : List Dbl) (ctr : Nat),
      ds.length = es.length → ds.length < f →
      elementWise op (f+1) (.arr r (ds.map Value.num)) (.arr r' (es.map Value.num)) ctr =
        (Except.ok (.arr ctr (List.zipWith (fun a b => Value.num (op a b)) ds es)), ctr + 1))
    ∧ (∀ (op : Dbl → Dbl → Dbl) (f : Nat) (r : Nat) (ds : List Dbl) (k : Dbl) (ctr : Nat),
      ds.length < f →
      elementWise op (f+1) (.arr r (ds.map Value.num)) (.num k) ctr =
        (Except.ok (.arr ctr (ds.map fun a => Value.num (op a k))), ctr + 1)
      ∧ elementWise op (f+1) (.num k) (.arr r (ds.map Value.num)) ctr =
        (Except.ok (.arr ctr (ds.map fun b => Value.num (op k b))), ctr + 1))
    ∧ ((runProgram prims0 defaultConfig 1000 "[1,2,3] .* [4,5,6]" initState).map
        (fun p => (plainV 10 (p.1.result.getD Value.undef))) =
        some (PValue.arr [PValue.num (dOfInt 4), PValue.num (dOfInt 10),
          PValue.num (dOfInt 18)]))
    ∧ ((runProgram prims0 defaultConfig 1000 "[1,2] .* [4,5,6]" initState).map
        (fun p => p.1.error) = some (some "Array length mismatch: 2 vs 3"))
    ∧ ((runProgram prims0 defaultConfig 1000 "[[1,2],[3]] .* [[1,2],[3,4]]" initState).map
        (fun p => p.1.error) = some (some "Array length mismatch: 1 vs 2")) := by
  refine ⟨?_, ?_, ?_, by rfl, by rfl, by rfl⟩
  · intro op f r r' ls rs ctr hne
    simp [elementWise, hne]
  · intro op f r r' ds es ctr hlen hf
    have : (ds.map Value.num).length = (es.map Value.num).length := by
      simp [hlen]
    simp [elementWise, this, ewPairs_nums op ds es f ctr hlen hf]
  · intro op f r ds k ctr hf
    exact ⟨by simp [elementWise, ewScalarR_nums op ds k f ctr hf],
      by simp [elementWise, ewScalarL_nums op ds k f ctr hf]⟩

/-- C3 witness: the flat-zip and mismatch lemmas at `[1,2] .* [4,5,6]`
and `[1,2,3] .* [4,5,6]`-sized inputs. -/
theorem c3_witness :
    elementWise dMul 10 (.arr 0 [Value.num (dOfInt 1), Value.num (dOfInt 2)])
      (.arr 1 [Value.num (dOfInt 4), Value.num (dOfInt 5), Value.num (dOfInt 6)]) 2 =
      (Except.error (.thrown ("Array length mismatch: " ++ natToStr 2
        ++ " vs " ++ natToStr 3)), 2)
    ∧ elementWise dMul 10
        (.arr 0 [Value.num (dOfInt 1), Value.num (dOfInt 2), Value.num (dOfInt 3)])
        (.arr 1 [Value.num (dOfInt 4), Value.num (dOfInt 5), Value.num (dOfInt 6)]) 2 =
      (Except.ok (.arr 2 [Value.num (dMul (dOfInt 1) (dOfInt 4)),
        Value.num (dMul (dOfInt 2) (dOfInt 5)),
        Value.num (dMul (dOfInt 3) (dOfInt 6))]), 3) :=
  ⟨c3_elementwise_broadcast.1 dMul 9 0 1
      [Value.num (dOfInt 1), Value.num (dOfInt 2)]
      [Value.num (dOfInt 4), Value.num (dOfInt 5), Value.num (dOfInt 6)] 2 (by decide),
   c3_elementwise_broadcast.2.1 dMul 9 0 1
      [dOfInt 1, dOfInt 2, dOfInt 3] [dOfInt 4, dOfInt 5, dOfInt 6] 2 (by decide) (by decide)⟩

/-! ## Variable-map lemmas (JavaScript `Map` set/delete/get) -/

theorem setVarL_setVarL (l : List (String × Value)) (n : String) (v w : Value) :
    setVarL (setVarL l n v) n w = setVarL l n w := by
  induction l with
  | nil => simp [setVarL]
  | cons p t ih =>
    by_cases h : p.1 = n
    · simp [setVarL, h]
    · simp [setVarL, h, ih]

theorem setVarL_of_find_self (l : List (String × Value)) (n : String) (v0 : Value)
    (h : (l.find? fun p => p.1 = n).map Prod.snd = some v0) :
    setVarL l n v0 = l := by
  induction l with
  | nil => simp [List.find?] at h
  | cons p t ih =>
    obtain ⟨k, w⟩ := p
    by_cases hp : k = n
    · rw [List.find?_cons_of_pos] at h
      · simp at h
        simp [setVarL, hp, h]
      · simp [hp]
    · rw [List.find?_cons_of_neg] at h
      · simp [setVarL, hp, ih h]
      · simp [hp]

theorem delVarL_of_find_none (l : List (String × Value)) (n : String)
    (h : (l.find? fun p => p.1 = n) = none) :
    delVarL l n = l := by
  induction l with
  | nil => rfl
  | cons p t ih =>
    obtain ⟨k, w⟩ := p
    by_cases hp : k = n
    · rw [List.find?_cons_of_pos] at h
      · exact absurd h (by simp)
      · simp [hp]
    · rw [List.find?_cons_of_neg] at h
      · simp [delVarL, hp, ih h]
      · simp [hp]

theorem delVarL_setVarL_none (l : List (String × Value)) (n : String) (v : Value)
    (h : (l.find? fun p => p.1 = n) = none) :
    delVarL (setVarL l n v) n = l := by
  induction l with
  | nil => simp [setVarL, delVarL]
  | cons p t ih =>
    obtain ⟨k, w⟩ := p
    by_cases hp : k = n
    · rw [List.find?_cons_of_pos] at h
      · exact absurd h (by simp)
      · simp [hp]
    · rw [List.find?_cons_of_neg] at h
      · simp [setVarL, delVarL, hp, ih h]
      · simp [hp]

/-- The `finally` restore of `evaluateSummation` leaves the variable
map exactly as it was before the loop, for any map the loop ends in
that is the original map or the original with the loop variable
rebound. -/
theorem restoreVar_cancels (s0 s3 : EvalState) (n : String)
    (hvars : s3.vars = s0.vars ∨ ∃ w, s3.vars = setVarL s0.vars n w) :
    (restoreVar s3 n (getVar s0 n)).vars = s0.vars := by
  rcases hfind : (s0.vars.find? fun p => p.1 = n) with _ | ⟨k, v0⟩
  · have hget : getVar s0 n = none := by
      simp [getVar, hfind]
    rw [hget]
    show (delVarS s3 n).vars = s0.vars
    show delVarL s3.vars n = s0.vars
    rcases hvars with h | ⟨w, h⟩
    · rw [h]
      exact delVarL_of_find_none _ _ hfind
    · rw [h]
      exact delVarL_setVarL_none _ _ _ hfind
  · have hget : getVar s0 n = some v0 := by
      simp [getVar, hfind]
    rw [hget]
    show (setVarS s3 n v0).vars = s0.vars
    show setVarL s3.vars n v0 = s0.vars
    have hself : setVarL s0.vars n v0 = s0.vars :=
      setVarL_of_find_self _ _ _ (by simp [hfind])
    rcases hvars with h | ⟨w, h⟩
    · rw [h, hself]
    · rw [h, setVarL_setVarL, hself]

/-- `evalRangeLoop` only ever allocates a fresh reference: it never
touches the variable map. -/
theorem evalRangeLoop_vars (f : Nat) (sv ev pv : Value) (s : EvalState) :
    (evalRangeLoop f sv ev pv s).2.vars = s.vars := by
  unfold evalRangeLoop
  rcases sv with dv | sv | bv | ⟨rv, lv⟩ | _ <;>
    rcases ev with dw | sw | bw | ⟨rw2, lw⟩ | _ <;>
      rcases pv with du | su | bu | ⟨ru, lu⟩ | _ <;>
        try rfl
  cases hr : rangeLoop f dv dw du [] <;> simp [hr]

/-- Assignment-free subtrees never change the variable map, on any
outcome (including thrown errors and fuel exhaustion): mutual
induction over the evaluator.  The `sigmaLoop` component records that
the loop leaves the map equal to the entry map or to the entry map
with the loop variable rebound, which the `finally` restore then
cancels. -/
theorem eval_noAssign_preserves (P : MathPrims) (cfg : Config) :
    ∀ f : Nat,
      (∀ (d : Nat) (node : ASTNode) (s : EvalState), noAssign d node = true →
        (eval P cfg f node s).2.vars = s.vars)
      ∧ (∀ (d : Nat) (op : String) (l r : ASTNode) (s : EvalState),
          noAssign d l = true → noAssign d r = true →
          (evalBinary P cfg f op l r s).2.vars = s.vars)
      ∧ (∀ (d : Nat) (callee : ASTNode) (args : List ASTNode) (s : EvalState),
          args.all (noAssign d) = true →
          (evalCall P cfg f callee args s).2.vars = s.vars)
      ∧ (∀ (d : Nat) (v st en body : ASTNode) (s : EvalState),
          noAssign d st = true → noAssign d en = true → noAssign d body = true →
          (evalSummation P cfg f v st en body s).2.vars = s.vars)
      ∧ (∀ (d : Nat) (i e : Dbl) (nm : String) (body : ASTNode) (acc : Dbl)
          (s : EvalState), noAssign d body = true →
          (sigmaLoop P cfg f i e nm body acc s).2.vars = s.vars
          ∨ ∃ w, (sigmaLoop P cfg f i e nm body acc s).2.vars = setVarL s.vars nm w)
      ∧ (∀ (d : Nat) (nodes : List ASTNode) (s : EvalState),
          nodes.all (noAssign d) = true →
          (evalList P cfg f nodes s).2.vars = s.vars)
      ∧ (∀ (d : Nat) (nodes : List ASTNode) (last : Value) (s : EvalState),
          nodes.all (noAssign d) = true →
          (progSeq P cfg f nodes last s).2.vars = s.vars) := by
  intro f
  induction f with
  | zero =>
    exact ⟨fun _ _ _ _ => rfl, fun _ _ _ _ _ _ _ => rfl, fun _ _ _ _ _ => rfl,
      fun _ _ _ _ _ _ _ _ _ => rfl, fun _ _ _ _ _ _ _ _ => Or.inl rfl,
      fun _ _ _ _ => rfl, fun _ _ _ _ _ => rfl⟩
  | succ f ih =>
    obtain ⟨ihE, ihB, ihC, ihS, ihL, ihEL, ihP⟩ := ih
    refine ⟨?_, ?_, ?_, ?_, ?_, ?_, ?_⟩
    · -- eval
      intro d node s hna
      cases d with
      | zero => simp [noAssign] at hna
      | succ d =>
      cases node with
      | PROGRAM cs =>
        simp only [noAssign] at hna
        simp only [eval]
        by_cases hcs : cs.isEmpty = true
        · simp [hcs]
        · simp only [hcs, Bool.false_eq_true, if_false]
          exact ihP d cs Value.undef s hna
      | NUMBER v => rfl
      | STRING v => rfl
      | IDENTIFIER name =>
        simp only [eval]
        cases hl : lookupConst name with
        | some v => simp [hl]
        | none => cases hg : getVar s name <;> simp [hl, hg]
      | BINARY_OP op l r =>
        simp only [noAssign, Bool.and_eq_true] at hna
        exact ihB d op l r s hna.1 hna.2
      | UNARY_OP op o =>
        simp only [noAssign] at hna
        simp only [eval]
        rcases h1 : eval P cfg f o s with ⟨res, s1⟩
        have hv : s1.vars = s.vars := by
          have := ihE d o s hna
          rw [h1] at this
          exact this
        cases res with
        | ok v =>
          cases h2 : applyUnary op v <;> simp [h2, hv]
        | error e => simpa using hv
      | POST_OP op o =>
        simp only [noAssign] at hna
        simp only [eval]
        rcases h1 : eval P cfg f o s with ⟨res, s1⟩
        have hv : s1.vars = s.vars := by
          have := ihE d o s hna
          rw [h1] at this
          exact this
        cases res with
        | ok v =>
          rcases h2 : applyPost op v s1.nextRef with ⟨rr, c⟩
          cases rr <;> simp [h2, hv]
        | error e => simpa using hv
      | FUNCTION_CALL c args =>
        simp only [noAssign, Bool.and_eq_true] at hna
        exact ihC d c args s hna.2
      | ARRAY es =>
        simp only [noAssign] at hna
        simp only [eval]
        rcases h1 : evalList P cfg f es s with ⟨res, s1⟩
        have hv : s1.vars = s.vars := by
          have := ihEL d es s hna
          rw [h1] at this
          exact this
        cases res with
        | ok vs => simpa using hv
        | error e => simpa using hv
      | CONDITIONAL c t e =>
        simp only [noAssign, Bool.and_eq_true] at hna
        simp only [eval]
        rcases h1 : eval P cfg f c s with ⟨res, s1⟩
        have hv : s1.vars = s.vars := by
          have := ihE d c s hna.1.1
          rw [h1] at this
          exact this
        cases res with
        | ok v =>
          dsimp only
          by_cases ht : truthy v = true
          · rw [if_pos ht, ihE d t s1 hna.1.2, hv]
          · rw [if_neg ht, ihE d e s1 hna.2, hv]
        | error err => simpa using hv
      | ASSIGNMENT l r => simp [noAssign] at hna
      | UNIT_VALUE o unit =>
        simp only [noAssign] at hna
        simp only [eval]
        rcases h1 : eval P cfg f o s with ⟨res, s1⟩
        have hv : s1.vars = s.vars := by
          have := ihE d o s hna
          rw [h1] at this
          exact this
        cases res with
        | ok v => simpa using hv
        | error e => simpa using hv
      | RANGE a b stepO =>
        simp only [noAssign, Bool.and_eq_true] at hna
        simp only [eval]
        rcases h1 : eval P cfg f a s with ⟨res1, s1⟩
        have hv1 : s1.vars = s.vars := by
          have := ihE d a s hna.1.1
          rw [h1] at this
          exact this
        cases res1 with
        | error e => simpa using hv1
        | ok sv =>
          dsimp only
          rcases h2 : eval P cfg f b s1 with ⟨res2, s2⟩
          have hv2 : s2.vars = s1.vars := by
            have := ihE d b s1 hna.1.2
            rw [h2] at this
            exact this
          cases res2 with
          | error e => simp [hv2, hv1]
          | ok ev =>
            dsimp only
            cases stepO with
            | none =>
              dsimp only
              rw [evalRangeLoop_vars, hv2, hv1]
            | some sn =>
              dsimp only
              have hsn : noAssign d sn = true := by simpa using hna.2
              rcases h3 : eval P cfg f sn s2 with ⟨res3, s3⟩
              have hv3 : s3.vars = s2.vars := by
                have := ihE d sn s2 hsn
                rw [h3] at this
                exact this
              cases res3 with
              | error e => simp [hv3, hv2, hv1]
              | ok pv =>
                dsimp only
                rw [evalRangeLoop_vars, hv3, hv2, hv1]
      | SUMMATION v a b body =>
        simp only [noAssign, Bool.and_eq_true] at hna
        exact ihS d v a b body s hna.1.1.2 hna.1.2 hna.2
    · -- evalBinary
      intro d op l r s hl hr
      simp only [evalBinary]
      rcases h1 : eval P cfg f l s with ⟨res1, s1⟩
      have hv1 : s1.vars = s.vars := by
        have := ihE d l s hl
        rw [h1] at this
        exact this
      cases res1 with
      | error e => simpa using hv1
      | ok lv =>
        dsimp only
        rcases h2 : eval P cfg f r s1 with ⟨res2, s2⟩
        have hv2 : s2.vars = s1.vars := by
          have := ihE d r s1 hr
          rw [h2] at this
          exact this
        cases res2 with
        | error e => simp [hv2, hv1]
        | ok rv =>
          dsimp only
          rcases h3 : applyBinOp P f op lv rv s2.nextRef with ⟨rr, c⟩
          cases rr <;> simp [h3, hv2, hv1]
    · -- evalCall
      intro d callee args s hargs
      simp only [evalCall]
      rcases h1 : evalList P cfg f args s with ⟨res1, s1⟩
      have hv1 : s1.vars = s.vars := by
        have := ihEL d args s hargs
        rw [h1] at this
        exact this
      cases res1 with
      | error e => simpa using hv1
      | ok argv =>
        dsimp only
        by_cases hall : cfg.allowedFunctions.contains callee.valueStr = true
        · rw [if_neg (not_not_intro hall)]
          cases h2 : applyFunc P cfg callee.valueStr argv <;> simp [h2, hv1]
        · rw [if_pos hall]
          simpa using hv1
    · -- evalSummation
      intro d v st en body s hst hen hbody
      simp only [evalSummation]
      rcases h1 : eval P cfg f st s with ⟨res1, s1⟩
      have hv1 : s1.vars = s.vars := by
        have := ihE d st s hst
        rw [h1] at this
        exact this
      cases res1 with
      | error e => simpa using hv1
      | ok sv =>
        dsimp only
        rcases h2 : eval P cfg f en s1 with ⟨res2, s2⟩
        have hv2 : s2.vars = s.vars := by
          have := ihE d en s1 hen
          rw [h2] at this
          rw [this, hv1]
        cases res2 with
        | error e => simpa using hv2
        | ok ev =>
          dsimp only
          rcases sv with sd | ss | sb | ⟨sr, sl⟩ | _ <;>
            rcases ev with ed | es | eb | ⟨er, el⟩ | _ <;>
              try simpa using hv2
          -- both bounds numeric
          dsimp only
          by_cases hint : dIsInt sd = true ∧ dIsInt ed = true
          · rw [if_neg (not_not_intro hint)]
            rcases h3 : sigmaLoop P cfg f sd ed v.valueStr body ⟨0, 0⟩ s2 with ⟨res3, s3⟩
            have hloop := ihL d sd ed v.valueStr body ⟨0, 0⟩ s2 hbody
            rw [h3] at hloop
            have hrest : (restoreVar s3 v.valueStr (getVar s2 v.valueStr)).vars = s2.vars := by
              apply restoreVar_cancels
              simpa using hloop
            cases res3 <;> simp [hrest, hv2]
          · rw [if_pos hint]
            simpa using hv2
    · -- sigmaLoop
      intro d i e nm body acc s hbody
      simp only [sigmaLoop]
      by_cases hle : dLe i e = true
      · rw [if_pos hle]
        rcases h1 : eval P cfg f body (setVarS s nm (.num i)) with ⟨res1, s1⟩
        have hv1 : s1.vars = setVarL s.vars nm (.num i) := by
          have := ihE d body (setVarS s nm (.num i)) hbody
          rw [h1] at this
          exact this
        cases res1 with
        | ok v =>
          cases v with
          | num t =>
            dsimp only
            rcases h2 : sigmaLoop P cfg f (dAdd i (dOfInt 1)) e nm body (dAdd acc t) s1
              with ⟨res2, s2⟩
            have hloop := ihL d (dAdd i (dOfInt 1)) e nm body (dAdd acc t) s1 hbody
            rw [h2] at hloop
            right
            rcases hloop with h | ⟨w, h⟩
            · exact ⟨Value.num i, by simp at h; simp [h, hv1]⟩
            · exact ⟨w, by simp at h; simp [h, hv1, setVarL_setVarL]⟩
          | str s2 => exact Or.inr ⟨Value.num i, by simpa using hv1⟩
          | bool b2 => exact Or.inr ⟨Value.num i, by simpa using hv1⟩
          | arr r2 l2 => exact Or.inr ⟨Value.num i, by simpa using hv1⟩
          | undef => exact Or.inr ⟨Value.num i, by simpa using hv1⟩
        | error e2 => exact Or.inr ⟨Value.num i, by simpa using hv1⟩
      · rw [if_neg hle]
        exact Or.inl rfl
    · -- evalList
      intro d nodes s hall
      cases nodes with
      | nil => rfl
      | cons n ns =>
        simp only [List.all_cons, Bool.and_eq_true] at hall
        simp only [evalList]
        rcases h1 : eval P cfg f n s with ⟨res1, s1⟩
        have hv1 : s1.vars = s.vars := by
          have := ihE d n s hall.1
          rw [h1] at this
          exact this
        cases res1 with
        | error e => simpa using hv1
        | ok v =>
          dsimp only
          rcases h2 : evalList P cfg f ns s1 with ⟨res2, s2⟩
          have hv2 : s2.vars = s1.vars := by
            have := ihEL d ns s1 hall.2
            rw [h2] at this
            exact this
          cases res2 <;> simp [hv2, hv1]
    · -- progSeq
      intro d nodes last s hall
      cases nodes with
      | nil => rfl
      | cons n ns =>
        simp only [List.all_cons, Bool.and_eq_true] at hall
        simp only [progSeq]
        rcases h1 : eval P cfg f n s with ⟨res1, s1⟩
        have hv1 : s1.vars = s.vars := by
          have := ihE d n s hall.1
          rw [h1] at this
          exact this
        cases res1 with
        | ok v =>
          dsimp only
          rw [ihP d ns v s1 hall.2, hv1]
        | error e => simpa using hv1

/-- C2: the summation construct restores the loop variable on every
exit path.  (1) For assignment-free bound and body expressions (the
only expressions the grammar produces inside `sigma`), evaluating a
summation leaves the entire variable map unchanged, on success, thrown
error, and fuel exhaustion alike; (2) binding `i` to `100` and then
running `sigma(i, 1, 3, i)` returns `6` and leaves the context exactly
as it started, with `i` still bound to `100`; (3) running
`sigma(j, 1, 3, 1)` with `j` previously unbound removes the key `j`
again, returning the untouched initial context. -/
theorem c2_summation_restores_loop_variable :
    (∀ (P : MathPrims) (cfg : Config) (f d : Nat) (v st en body : ASTNode)
        (s : EvalState),
        noAssign d st = true → noAssign d en = true → noAssign d body = true →
        (evalSummation P cfg f v st en body s).2.vars = s.vars)
    ∧ (runProgram prims0 defaultConfig 1000 "sigma(i, 1, 3, i)"
          (setVariable initState "i" (Value.num (dOfInt 100))) =
        some (⟨true, some (Value.num (dOfInt 6)), none⟩,
          setVariable initState "i" (Value.num (dOfInt 100))))
    ∧ (runProgram prims0 defaultConfig 1000 "sigma(j, 1, 3, 1)" initState =
        some (⟨true, some (Value.num (dOfInt 3)), none⟩, initState)) := by
  refine ⟨?_, by rfl, by rfl⟩
  intro P cfg f d v st en body s hst hen hbody
  exact (eval_noAssign_preserves P cfg f).2.2.2.1 d v st en body s hst hen hbody

/-- C2 witness: the frame property applied to the concrete summation
`sigma(k, 1, 2, 7)` in the fresh context. -/
theorem c2_witness :
    noAssign 1 (ASTNode.NUMBER (dOfInt 1)) = true
    ∧ (evalSummation prims0 defaultConfig 50 (ASTNode.IDENTIFIER "k")
        (ASTNode.NUMBER (dOfInt 1)) (ASTNode.NUMBER (dOfInt 2))
        (ASTNode.NUMBER (dOfInt 7)) initState).2.vars = initState.vars :=
  ⟨rfl, c2_summation_restores_loop_variable.1 prims0 defaultConfig 50 1
    (ASTNode.IDENTIFIER "k") (ASTNode.NUMBER (dOfInt 1)) (ASTNode.NUMBER (dOfInt 2))
    (ASTNode.NUMBER (dOfInt 7)) initState rfl rfl rfl⟩

/-- Evaluation of call-free code is independent of the context
configuration: neither the function allow-list nor the angle mode is
ever consulted outside `evaluateFunctionCall`.  Mutual induction over
the evaluator. -/
theorem eval_callFree_config_irrelevant (P : MathPrims) (cfg1 cfg2 : Config) :
    ∀ f : Nat,
      (∀ (d : Nat) (node : ASTNode) (s : EvalState), callFree d node = true →
        eval P cfg1 f node s = eval P cfg2 f node s)
      ∧ (∀ (d : Nat) (op : String) (l r : ASTNode) (s : EvalState),
          callFree d l = true → callFree d r = true →
          evalBinary P cfg1 f op l r s = evalBinary P cfg2 f op l r s)
      ∧ (∀ (d : Nat) (v st en body : ASTNode) (s : EvalState),
          callFree d st = true → callFree d en = true → callFree d body = true →
          evalSummation P cfg1 f v st en body s = evalSummation P cfg2 f v st en body s)
      ∧ (∀ (d : Nat) (i e : Dbl) (nm : String) (body : ASTNode) (acc : Dbl)
          (s : EvalState), callFree d body = true →
          sigmaLoop P cfg1 f i e nm body acc s = sigmaLoop P cfg2 f i e nm body acc s)
      ∧ (∀ (d : Nat) (nodes : List ASTNode) (s : EvalState),
          nodes.all (callFree d) = true →
          evalList P cfg1 f nodes s = evalList P cfg2 f nodes s)
      ∧ (∀ (d : Nat) (nodes : List ASTNode) (last : Value) (s : EvalState),
          nodes.all (callFree d) = true →
          progSeq P cfg1 f nodes last s = progSeq P cfg2 f nodes last s) := by
  intro f
  induction f with
  | zero =>
    exact ⟨fun _ _ _ _ => rfl, fun _ _ _ _ _ _ _ => rfl, fun _ _ _ _ _ _ _ _ _ => rfl,
      fun _ _ _ _ _ _ _ _ => rfl, fun _ _ _ _ => rfl, fun _ _ _ _ _ => rfl⟩
  | succ f ih =>
    obtain ⟨ihE, ihB, ihS, ihL, ihEL, ihP⟩ := ih
    refine ⟨?_, ?_, ?_, ?_, ?_, ?_⟩
    · -- eval
      intro d node s hcf
      cases d with
      | zero => simp [callFree] at hcf
      | succ d =>
      cases node with
      | PROGRAM cs =>
        simp only [callFree] at hcf
        simp only [eval]
        by_cases hcs : cs.isEmpty = true
        · simp [hcs]
        · simp only [hcs, Bool.false_eq_true, if_false]
          exact ihP d cs Value.undef s hcf
      | NUMBER v => rfl
      | STRING v => rfl
      | IDENTIFIER name => rfl
      | BINARY_OP op l r =>
        simp only [callFree, Bool.and_eq_true] at hcf
        exact ihB d op l r s hcf.1 hcf.2
      | UNARY_OP op o =>
        simp only [callFree] at hcf
        simp only [eval]
        rw [ihE d o s hcf]
      | POST_OP op o =>
        simp only [callFree] at hcf
        simp only [eval]
        rw [ihE d o s hcf]
      | FUNCTION_CALL c args => simp [callFree] at hcf
      | ARRAY es =>
        simp only [callFree] at hcf
        simp only [eval]
        rw [ihEL d es s hcf]
      | CONDITIONAL c t e =>
        simp only [callFree, Bool.and_eq_true] at hcf
        simp only [eval]
        rw [ihE d c s hcf.1.1]
        rcases h1 : eval P cfg2 f c s with ⟨res, s1⟩
        cases res with
        | ok v =>
          dsimp only
          by_cases ht : truthy v = true
          · rw [if_pos ht, if_pos ht, ihE d t s1 hcf.1.2]
          · rw [if_neg ht, if_neg ht, ihE d e s1 hcf.2]
        | error err => rfl
      | ASSIGNMENT l r =>
        simp only [callFree] at hcf
        simp only [eval]
        rw [ihE d r s hcf]
      | UNIT_VALUE o unit =>
        simp only [callFree] at hcf
        simp only [eval]
        rw [ihE d o s hcf]
      | RANGE a b stepO =>
        simp only [callFree, Bool.and_eq_true] at hcf
        simp only [eval]
        rw [ihE d a s hcf.1.1]
        rcases h1 : eval P cfg2 f a s with ⟨res1, s1⟩
        cases res1 with
        | error e => rfl
        | ok sv =>
          dsimp only
          rw [ihE d b s1 hcf.1.2]
          rcases h2 : eval P cfg2 f b s1 with ⟨res2, s2⟩
          cases res2 with
          | error e => rfl
          | ok ev =>
            dsimp only
            cases stepO with
            | none => rfl
            | some sn =>
              dsimp only
              have hsn : callFree d sn = true := by simpa using hcf.2
              rw [ihE d sn s2 hsn]
      | SUMMATION v a b body =>
        simp only [callFree, Bool.and_eq_true] at hcf
        exact ihS d v a b body s hcf.1.1 hcf.1.2 hcf.2
    · -- evalBinary
      intro d op l r s hl hr
      simp only [evalBinary]
      rw [ihE d l s hl]
      rcases h1 : eval P cfg2 f l s with ⟨res1, s1⟩
      cases res1 with
      | error e => rfl
      | ok lv =>
        dsimp only
        rw [ihE d r s1 hr]
    · -- evalSummation
      intro d v st en body s hst hen hbody
      simp only [evalSummation]
      rw [ihE d st s hst]
      rcases h1 : eval P cfg2 f st s with ⟨res1, s1⟩
      cases res1 with
      | error e => rfl
      | ok sv =>
        dsimp only
        rw [ihE d en s1 hen]
        rcases h2 : eval P cfg2 f en s1 with ⟨res2, s2⟩
        cases res2 with
        | error e => rfl
        | ok ev =>
          dsimp only
          rcases sv with sd | ss | sb | ⟨sr, sl⟩ | _ <;>
            rcases ev with ed | es | eb | ⟨er, el⟩ | _ <;>
              try rfl
          dsimp only
          by_cases hint : dIsInt sd = true ∧ dIsInt ed = true
          · rw [if_neg (not_not_intro hint), if_neg (not_not_intro hint)]
            rw [ihL d sd ed v.valueStr body ⟨0, 0⟩ s2 hbody]
          · rw [if_pos hint, if_pos hint]
    · -- sigmaLoop
      intro d i e nm body acc s hbody
      simp only [sigmaLoop]
      by_cases hle : dLe i e = true
      · rw [if_pos hle, if_pos hle]
        rw [ihE d body (setVarS s nm (.num i)) hbody]
        rcases h1 : eval P cfg2 f body (setVarS s nm (.num i)) with ⟨res1, s1⟩
        cases res1 with
        | ok v =>
          cases v with
          | num t =>
            dsimp only
            exact ihL d (dAdd i (dOfInt 1)) e nm body (dAdd acc t) s1 hbody
          | str s2 => rfl
          | bool b2 => rfl
          | arr r2 l2 => rfl
          | undef => rfl
        | error e2 => rfl
      · rw [if_neg hle, if_neg hle]
    · -- evalList
      intro d nodes s hall
      cases nodes with
      | nil => rfl
      | cons n ns =>
        simp only [List.all_cons, Bool.and_eq_true] at hall
        simp only [evalList]
        rw [ihE d n s hall.1]
        rcases h1 : eval P cfg2 f n s with ⟨res1, s1⟩
        cases res1 with
        | error e => rfl
        | ok v =>
          dsimp only
          rw [ihEL d ns s1 hall.2]
    · -- progSeq
      intro d nodes last s hall
      cases nodes with
      | nil => rfl
      | cons n ns =>
        simp only [List.all_cons, Bool.and_eq_true] at hall
        simp only [progSeq]
        rw [ihE d n s hall.1]
        rcases h1 : eval P cfg2 f n s with ⟨res1, s1⟩
        cases res1 with
        | ok v =>
          dsimp only
          exact ihP d ns v s1 hall.2
        | error e => rfl

/-- C9: the summation construct never goes through the function
allow-list.  (1) `sigma(i, 1, 3, i)` parses to a `SUMMATION` node, not
a `FUNCTION_CALL` named `sigma`; (2) for every context configuration —
including ones whose allow-list is empty and hence lacks `"sigma"` —
evaluating it succeeds with result `6`; (3) by contrast every ordinary
function call whose callee is absent from the allow-list fails with the
`Function not allowed` error once its arguments are evaluated. -/
theorem c9_summation_bypasses_allowlist :
    ((parse 1000 "sigma(i, 1, 3, i)").ast = some sigAst)
    ∧ (∀ cfg : Config,
        runProgram prims0 cfg 1000 "sigma(i, 1, 3, i)" initState =
          some (⟨true, some (Value.num (dOfInt 6)), none⟩, initState))
    ∧ (∀ (P : MathPrims) (cfg : Config) (f : Nat) (callee : ASTNode)
        (args : List ASTNode) (s s1 : EvalState) (argv : List Value),
        evalList P cfg f args s = (Except.ok argv, s1) →
        cfg.allowedFunctions.contains callee.valueStr = false →
        evalCall P cfg (f+1) callee args s =
          (Except.error (EvalErr.thrown ("Function not allowed: " ++ callee.valueStr)),
            s1)) := by
  refine ⟨by rfl, ?_, ?_⟩
  · intro cfg
    have hind := (eval_callFree_config_irrelevant prims0 cfg
      (cfgEmptyAllow AngleMode.radians) 1000).1 3 sigAst initState (by rfl)
    unfold runProgram
    rw [show (parse 1000 "sigma(i, 1, 3, i)").ast = some sigAst from rfl]
    show some (evaluateAST prims0 cfg 1000 sigAst initState) = _
    unfold evaluateAST
    rw [hind]
    rfl
  · intro P cfg f callee args s s1 argv hargs hcontains
    have hnot : callee.valueStr ∉ cfg.allowedFunctions := by simpa using hcontains
    show evalCall P cfg (f+1) callee args s = _
    unfold evalCall
    simp [hargs, hnot]

/-- C9 witness: an ordinary call to the non-allow-listed name `sigma`
(allow-list restricted to `sqrt`) with no arguments is rejected. -/
theorem c9_witness :
    evalList prims0 cfgOnlySqrt 10 [] initState = (Except.ok [], initState)
    ∧ cfgOnlySqrt.allowedFunctions.contains (ASTNode.IDENTIFIER "sigma").valueStr = false
    ∧ evalCall prims0 cfgOnlySqrt 11 (ASTNode.IDENTIFIER "sigma") [] initState =
        (Except.error (EvalErr.thrown ("Function not allowed: " ++
          (ASTNode.IDENTIFIER "sigma").valueStr)), initState) :=
  ⟨rfl, rfl, c9_summation_bypasses_allowlist.2.2 prims0 cfgOnlySqrt 10
    (ASTNode.IDENTIFIER "sigma") [] initState initState [] rfl rfl⟩

/-! ## Integer exactness of the binary64 model (toward the range-loop
termination theorem) -/

/-- `lg2go` computes the floor binary logarithm when given enough fuel. -/
theorem lg2go_spec : ∀ (fuel n : Nat), 1 ≤ n → n ≤ fuel →
    2 ^ lg2go fuel n ≤ n ∧ n < 2 ^ (lg2go fuel n + 1) := by
  intro fuel
  induction fuel with
  | zero => intro n h1 h2; omega
  | succ f ih =>
    intro n h1 h2
    unfold lg2go
    by_cases h : 2 ≤ n
    · rw [if_pos h]
      have hn2 : 1 ≤ n / 2 := by omega
      have hle : n / 2 ≤ f := by omega
      obtain ⟨hl, hr⟩ := ih (n / 2) hn2 hle
      have e1 : 2 ^ (lg2go f (n / 2) + 1) = 2 * 2 ^ lg2go f (n / 2) := by ring
      have e2 : 2 ^ (lg2go f (n / 2) + 1 + 1) = 2 * 2 ^ (lg2go f (n / 2) + 1) := by ring
      omega
    · rw [if_neg h]
      have hn : n = 1 := by omega
      subst hn
      simp

/-- The floor binary logarithm sandwich for `lg2`. -/
theorem lg2_spec (n : Nat) (h1 : 1 ≤ n) :
    2 ^ lg2 n ≤ n ∧ n < 2 ^ (lg2 n + 1) :=
  lg2go_spec n n h1 le_rfl

/-- `lg2` is determined by the sandwich. -/
theorem lg2_eq_of (n k : Nat) (h1 : 1 ≤ n) (hl : 2 ^ k ≤ n) (hr : n < 2 ^ (k + 1)) :
    lg2 n = k := by
  obtain ⟨hl2, hr2⟩ := lg2_spec n h1
  rcases Nat.lt_trichotomy (lg2 n) k with hlt | heq | hgt
  · have : 2 ^ (lg2 n + 1) ≤ 2 ^ k := Nat.pow_le_pow_right (by norm_num) hlt
    omega
  · exact heq
  · have : 2 ^ (k + 1) ≤ 2 ^ lg2 n := Nat.pow_le_pow_right (by norm_num) hgt
    omega

/-- `lg2` of a power of two. -/
theorem lg2_pow (k : Nat) : lg2 (2 ^ k) = k :=
  lg2_eq_of _ _ (Nat.one_le_two_pow) le_rfl
    (Nat.pow_lt_pow_right (by norm_num) (by omega))

/-- `lg2` of `n * 2^k`. -/
theorem lg2_mul_pow (n k : Nat) (h1 : 1 ≤ n) : lg2 (n * 2 ^ k) = lg2 n + k := by
  obtain ⟨hl, hr⟩ := lg2_spec n h1
  apply lg2_eq_of
  · have : 1 ≤ 2 ^ k := Nat.one_le_two_pow
    exact Nat.one_le_iff_ne_zero.mpr (by positivity)
  · calc 2 ^ (lg2 n + k) = 2 ^ lg2 n * 2 ^ k := by rw [pow_add]
    _ ≤ n * 2 ^ k := Nat.mul_le_mul_right _ hl
  · have hp : 0 < 2 ^ k := by positivity
    calc n * 2 ^ k < 2 ^ (lg2 n + 1) * 2 ^ k := (mul_lt_mul_right hp).mpr hr
    _ = 2 ^ (lg2 n + k + 1) := by rw [← pow_add]; congr 1; omega

/-- `shiftLe` at the binade of an integer times a power of two. -/
theorem shiftLe_pow_self (n k : Nat) (h1 : 1 ≤ n) :
    shiftLe (2 ^ k) ((lg2 n : Nat) : Int) (n * 2 ^ k) = true := by
  unfold shiftLe
  rw [if_pos (Int.natCast_nonneg _)]
  simp only [Int.toNat_natCast, decide_eq_true_eq]
  calc 2 ^ k * 2 ^ lg2 n = 2 ^ lg2 n * 2 ^ k := by ring
  _ ≤ n * 2 ^ k := Nat.mul_le_mul_right _ (lg2_spec n h1).1

/-- The binade of `(n * 2^k) / 2^k` is `lg2 n`. -/
theorem binadeFrac_int (n k : Nat) (h1 : 1 ≤ n) :
    binadeFrac (n * 2 ^ k) (2 ^ k) = ((lg2 n : Nat) : Int) := by
  have he0 : ((lg2 (n * 2 ^ k) : Nat) : Int) - ((lg2 (2 ^ k) : Nat) : Int) =
      ((lg2 n : Nat) : Int) := by
    rw [lg2_mul_pow n k h1, lg2_pow]
    push_cast
    ring
  simp only [binadeFrac]
  rw [he0, shiftLe_pow_self n k h1]
  simp

/-- Rounding the integer fraction `(n * 2^k) / 2^k` for `n < 2^53` is
exact: the mantissa is `n` shifted into the canonical binade. -/
theorem flFracPos_int (n k : Nat) (h1 : 1 ≤ n) (h2 : n < 2 ^ 53) :
    flFracPos (n * 2 ^ k) (2 ^ k) =
      (((n * 2 ^ (52 - lg2 n) : Nat) : Int), ((lg2 n : Nat) : Int) - 52) := by
  have hL52 : lg2 n ≤ 52 := by
    by_contra hgt
    have hp : 2 ^ 53 ≤ 2 ^ lg2 n := Nat.pow_le_pow_right (by norm_num) (by omega)
    have hs := (lg2_spec n h1).1
    omega
  have ht : (((52 : Int) - ((lg2 n : Nat) : Int))).toNat = 52 - lg2 n := by omega
  have htneg : ((-((52 : Int) - ((lg2 n : Nat) : Int)))).toNat = 0 := by omega
  have hQ : (2 ^ k * 2 ^ 0 : Nat) = 2 ^ k := by ring
  have hN : (n * 2 ^ k * 2 ^ (52 - lg2 n) : Nat) = n * 2 ^ (52 - lg2 n) * 2 ^ k := by
    ring
  have hdiv : n * 2 ^ (52 - lg2 n) * 2 ^ k / 2 ^ k = n * 2 ^ (52 - lg2 n) :=
    Nat.mul_div_cancel _ (by positivity)
  have hmod : n * 2 ^ (52 - lg2 n) * 2 ^ k % 2 ^ k = 0 := Nat.mul_mod_left _ _
  have hm0lo : 2 ^ 52 ≤ n * 2 ^ (52 - lg2 n) := by
    calc (2 ^ 52 : Nat) = 2 ^ lg2 n * 2 ^ (52 - lg2 n) := by
          rw [← pow_add]; congr 1; omega
    _ ≤ n * 2 ^ (52 - lg2 n) := Nat.mul_le_mul_right _ (lg2_spec n h1).1
  have hm0hi : n * 2 ^ (52 - lg2 n) < 2 ^ 53 := by
    have hp : 0 < 2 ^ (52 - lg2 n) := by positivity
    calc n * 2 ^ (52 - lg2 n) < 2 ^ (lg2 n + 1) * 2 ^ (52 - lg2 n) :=
          (mul_lt_mul_right hp).mpr (lg2_spec n h1).2
    _ = 2 ^ 53 := by rw [← pow_add]; congr 1; omega
  simp only [flFracPos]
  rw [binadeFrac_int n k h1, ht, htneg, hQ, hN, hdiv, hmod]
  rw [if_pos (by positivity : 2 * 0 < 2 ^ k)]
  rw [if_neg (by omega : ¬ n * 2 ^ (52 - lg2 n) = 2 ^ 53)]

/-- The canonical representation of a positive integer below `2^53`. -/
theorem dOfInt_pos_spec (n : Nat) (h1 : 1 ≤ n) (h2 : n < 2 ^ 53) :
    dOfInt ((n : Nat) : Int) =
      ⟨((n * 2 ^ (52 - lg2 n) : Nat) : Int), ((lg2 n : Nat) : Int) - 52⟩ := by
  have hfp : flFracPos n 1 =
      (((n * 2 ^ (52 - lg2 n) : Nat) : Int), ((lg2 n : Nat) : Int) - 52) := by
    have h := flFracPos_int n 0 h1 h2
    simpa using h
  have hne : ¬ (((n : Nat) : Int) = 0 ∨ (1 : Int) ≤ 0) := by
    push_neg
    constructor
    · have : n ≠ 0 := by omega
      exact_mod_cast this
    · norm_num
  have hpos : (0 : Int) < ((n : Nat) : Int) := by exact_mod_cast h1
  unfold dOfInt flFrac
  rw [if_neg hne, if_pos hpos]
  simp [hfp]

/-- Multiplying numerator and denominator by `2^k` does not change the
rounded value: `flFrac ((n * 2^k) / 2^k)` is `n` itself. -/
theorem flFrac_mul_pow (n k : Nat) (h1 : 1 ≤ n) (h2 : n < 2 ^ 53) :
    flFrac (((n * 2 ^ k : Nat) : Nat) : Int) (((2 ^ k : Nat) : Nat) : Int) =
      dOfInt ((n : Nat) : Int) := by
  have hnk : 1 ≤ n * 2 ^ k := Nat.one_le_iff_ne_zero.mpr (by positivity)
  have hne : ¬ ((((n * 2 ^ k : Nat) : Nat) : Int) = 0 ∨ (((2 ^ k : Nat) : Nat) : Int) ≤ 0) := by
    push_neg
    constructor
    · have : n * 2 ^ k ≠ 0 := by positivity
      exact_mod_cast this
    · have : 0 < 2 ^ k := by positivity
      exact_mod_cast this
  have hpos : (0 : Int) < (((n * 2 ^ k : Nat) : Nat) : Int) := by exact_mod_cast hnk
  unfold flFrac
  rw [if_neg hne, if_pos hpos]
  rw [dOfInt_pos_spec n h1 h2]
  have hT1 : ((((n * 2 ^ k : Nat) : Nat) : Int)).toNat = n * 2 ^ k := Int.toNat_natCast _
  have hT2 : ((((2 ^ k : Nat) : Nat) : Int)).toNat = 2 ^ k := Int.toNat_natCast _
  rw [hT1, hT2, flFracPos_int n k h1 h2]

/-- Integers below `2^53` live in binades up to 52. -/
theorem lg2_le_52 (n : Nat) (h1 : 1 ≤ n) (h2 : n < 2 ^ 53) : lg2 n ≤ 52 := by
  by_contra hgt
  have hp : 2 ^ 53 ≤ 2 ^ lg2 n := Nat.pow_le_pow_right (by norm_num) (by omega)
  have hs := (lg2_spec n h1).1
  omega

/-- Binary64 addition is exact on positive integers whose sum stays
below `2^53`. -/
theorem dAdd_int (x c : Nat) (hx : 1 ≤ x) (hc : 1 ≤ c) (hxc : x + c < 2 ^ 53) :
    dAdd (dOfInt ((x : Nat) : Int)) (dOfInt ((c : Nat) : Int)) =
      dOfInt (((x + c : Nat) : Nat) : Int) := by
  have hx2 : x < 2 ^ 53 := by omega
  have hc2 : c < 2 ^ 53 := by omega
  have hLx : lg2 x ≤ 52 := lg2_le_52 x hx hx2
  have hLc : lg2 c ≤ 52 := lg2_le_52 c hc hc2
  rw [dOfInt_pos_spec x hx hx2, dOfInt_pos_spec c hc hc2]
  unfold dAdd
  dsimp only
  have hE : min (((lg2 x : Nat) : Int) - 52) (((lg2 c : Nat) : Int) - 52) =
      ((min (lg2 x) (lg2 c) : Nat) : Int) - 52 := by omega
  rw [hE]
  have hTx : ((((lg2 x : Nat) : Int) - 52) - (((min (lg2 x) (lg2 c) : Nat) : Int) - 52)).toNat
      = lg2 x - min (lg2 x) (lg2 c) := by omega
  have hTc : ((((lg2 c : Nat) : Int) - 52) - (((min (lg2 x) (lg2 c) : Nat) : Int) - 52)).toNat
      = lg2 c - min (lg2 x) (lg2 c) := by omega
  rw [hTx, hTc]
  have e1 : x * 2 ^ (52 - lg2 x) * 2 ^ (lg2 x - min (lg2 x) (lg2 c))
      = x * 2 ^ (52 - min (lg2 x) (lg2 c)) := by
    rw [mul_assoc, ← pow_add]
    congr 2
    omega
  have e2 : c * 2 ^ (52 - lg2 c) * 2 ^ (lg2 c - min (lg2 x) (lg2 c))
      = c * 2 ^ (52 - min (lg2 x) (lg2 c)) := by
    rw [mul_assoc, ← pow_add]
    congr 2
    omega
  have hS : (((x * 2 ^ (52 - lg2 x) : Nat) : Int)) * 2 ^ (lg2 x - min (lg2 x) (lg2 c))
      + (((c * 2 ^ (52 - lg2 c) : Nat) : Int)) * 2 ^ (lg2 c - min (lg2 x) (lg2 c))
      = (((x + c) * 2 ^ (52 - min (lg2 x) (lg2 c)) : Nat) : Int) := by
    calc (((x * 2 ^ (52 - lg2 x) : Nat) : Int)) * 2 ^ (lg2 x - min (lg2 x) (lg2 c))
        + (((c * 2 ^ (52 - lg2 c) : Nat) : Int)) * 2 ^ (lg2 c - min (lg2 x) (lg2 c))
        = (((x * 2 ^ (52 - lg2 x) * 2 ^ (lg2 x - min (lg2 x) (lg2 c))
            + c * 2 ^ (52 - lg2 c) * 2 ^ (lg2 c - min (lg2 x) (lg2 c)) : Nat) : Int)) := by
          push_cast
          ring
    _ = (((x + c) * 2 ^ (52 - min (lg2 x) (lg2 c)) : Nat) : Int) := by
          rw [e1, e2]
          push_cast
          ring
  rw [hS]
  unfold dyadicFrac
  by_cases hM : min (lg2 x) (lg2 c) = 52
  · rw [if_pos (by omega : (0 : Int) ≤ ((min (lg2 x) (lg2 c) : Nat) : Int) - 52)]
    dsimp only
    have hz : ((((min (lg2 x) (lg2 c) : Nat) : Int) - 52)).toNat = 0 := by omega
    rw [hz, hM]
    norm_num
    rfl
  · rw [if_neg (by omega : ¬ (0 : Int) ≤ ((min (lg2 x) (lg2 c) : Nat) : Int) - 52)]
    dsimp only
    have hminus : ((-(((min (lg2 x) (lg2 c) : Nat) : Int) - 52))).toNat
        = 52 - min (lg2 x) (lg2 c) := by omega
    rw [hminus]
    exact flFrac_mul_pow (x + c) (52 - min (lg2 x) (lg2 c)) (by omega) hxc

/-- The binary64 comparison agrees with the integer comparison on
positive integers below `2^53`. -/
theorem dLe_int (x y : Nat) (hx : 1 ≤ x) (hy : 1 ≤ y) (hx2 : x < 2 ^ 53)
    (hy2 : y < 2 ^ 53) :
    dLe (dOfInt ((x : Nat) : Int)) (dOfInt ((y : Nat) : Int)) = decide (x ≤ y) := by
  have hLx : lg2 x ≤ 52 := lg2_le_52 x hx hx2
  have hLy : lg2 y ≤ 52 := lg2_le_52 y hy hy2
  rw [dOfInt_pos_spec x hx hx2, dOfInt_pos_spec y hy hy2]
  unfold dLe
  dsimp only
  have hE : min (((lg2 x : Nat) : Int) - 52) (((lg2 y : Nat) : Int) - 52) =
      ((min (lg2 x) (lg2 y) : Nat) : Int) - 52 := by omega
  rw [hE]
  have hTx : ((((lg2 x : Nat) : Int) - 52) - (((min (lg2 x) (lg2 y) : Nat) : Int) - 52)).toNat
      = lg2 x - min (lg2 x) (lg2 y) := by omega
  have hTy : ((((lg2 y : Nat) : Int) - 52) - (((min (lg2 x) (lg2 y) : Nat) : Int) - 52)).toNat
      = lg2 y - min (lg2 x) (lg2 y) := by omega
  rw [hTx, hTy]
  have e1 : x * 2 ^ (52 - lg2 x) * 2 ^ (lg2 x - min (lg2 x) (lg2 y))
      = x * 2 ^ (52 - min (lg2 x) (lg2 y)) := by
    rw [mul_assoc, ← pow_add]
    congr 2
    omega
  have e2 : y * 2 ^ (52 - lg2 y) * 2 ^ (lg2 y - min (lg2 x) (lg2 y))
      = y * 2 ^ (52 - min (lg2 x) (lg2 y)) := by
    rw [mul_assoc, ← pow_add]
    congr 2
    omega
  have hiff : ((((x * 2 ^ (52 - lg2 x) : Nat) : Int)) * 2 ^ (lg2 x - min (lg2 x) (lg2 y))
      ≤ (((y * 2 ^ (52 - lg2 y) : Nat) : Int)) * 2 ^ (lg2 y - min (lg2 x) (lg2 y)))
      ↔ x ≤ y := by
    have hcast : ∀ (a ka kb : Nat), (((a * 2 ^ ka : Nat) : Int)) * 2 ^ kb
        = ((a * 2 ^ ka * 2 ^ kb : Nat) : Int) := by
      intro a ka kb
      push_cast
      ring
    rw [hcast, hcast, e1, e2, Int.ofNat_le]
    constructor
    · intro h
      exact Nat.le_of_mul_le_mul_right h (by positivity)
    · intro h
      exact Nat.mul_le_mul_right _ h
  exact decide_eq_decide.mpr hiff

/-- The `RANGE` loop with step `0` never exits: the loop counter never
moves (`1 + 0 = 1`) and the guard `1 <= 2` stays true, so every fuel
budget is exhausted — the JavaScript `for`-loop runs forever. -/
theorem rangeLoop_step0 : ∀ (fuel : Nat) (acc : List Dbl),
    rangeLoop fuel (dOfInt 1) (dOfInt 2) ⟨0, 0⟩ acc = none := by
  intro fuel
  induction fuel with
  | zero => intro acc; rfl
  | succ f ih =>
    intro acc
    simp only [rangeLoop]
    rw [show dLe (dOfInt 1) (dOfInt 2) = true from rfl]
    rw [if_pos rfl]
    rw [show dAdd (dOfInt 1) ⟨0, 0⟩ = dOfInt 1 from rfl]
    exact ih (acc ++ [dOfInt 1])

/-- Step-by-step termination of the `RANGE` loop with positive integer
start, end and step, by induction on the fuel with the measure
`end + step - i`. -/
theorem rangeLoop_pos_step_terminates :
    ∀ (fuel x b c : Nat) (acc : List Dbl),
      1 ≤ x → 1 ≤ b → 1 ≤ c → x < 2 ^ 53 → b + c < 2 ^ 53 → b + c - x < fuel →
      ∃ l, rangeLoop fuel (dOfInt ((x : Nat) : Int)) (dOfInt ((b : Nat) : Int))
        (dOfInt ((c : Nat) : Int)) acc = some l := by
  intro fuel
  induction fuel with
  | zero =>
    intro x b c acc _ _ _ _ _ hf
    omega
  | succ f ih =>
    intro x b c acc hx hb hc hx2 hbc hf
    simp only [rangeLoop]
    rw [dLe_int x b hx hb hx2 (by omega)]
    by_cases hxb : x ≤ b
    · have hd : decide (x ≤ b) = true := decide_eq_true hxb
      rw [hd, if_pos rfl, dAdd_int x c hx hc (by omega)]
      exact ih (x + c) b c (acc ++ [dOfInt ((x : Nat) : Int)]) (by omega) hb hc
        (by omega) hbc (by omega)
    · have hd : decide (x ≤ b) = false := decide_eq_false hxb
      rw [hd, if_neg Bool.false_ne_true]
      exact ⟨acc, rfl⟩

/-- C6 counterexample: evaluation does *not* always terminate.  The
range `1:2:0` parses fine, but its step is `0`, so the evaluator loop
`for (let i = start; i <= end; i += step)` never advances: the loop
returns `none` (no result) for every fuel budget, and evaluating the
parsed program consumes any fuel budget without producing a value —
the JavaScript interpreter hangs forever on this input. -/
theorem c6_counterexample :
    ((parse 1000 "1:2:0").ast = some rangeStep0Ast)
    ∧ (∀ (fuel : Nat) (acc : List Dbl),
        rangeLoop fuel (dOfInt 1) (dOfInt 2) ⟨0, 0⟩ acc = none)
    ∧ (∀ (fuel : Nat) (s : EvalState),
        eval prims0 defaultConfig (fuel + 6) rangeStep0Ast s =
          (Except.error EvalErr.noFuel, s)) := by
  refine ⟨by rfl, rangeLoop_step0, ?_⟩
  intro fuel s
  have h := rangeLoop_step0 (fuel + 3) []
  have h2 : eval prims0 defaultConfig (fuel + 4)
      (ASTNode.RANGE (ASTNode.NUMBER (dOfInt 1)) (ASTNode.NUMBER (dOfInt 2))
        (some (ASTNode.NUMBER ⟨0, 0⟩))) s = (Except.error EvalErr.noFuel, s) := by
    show evalRangeLoop (fuel + 3) (Value.num (dOfInt 1)) (Value.num (dOfInt 2))
      (Value.num ⟨0, 0⟩) s = _
    unfold evalRangeLoop
    dsimp only
    rw [h]
  have h3 : progSeq prims0 defaultConfig (fuel + 5)
      [ASTNode.RANGE (ASTNode.NUMBER (dOfInt 1)) (ASTNode.NUMBER (dOfInt 2))
        (some (ASTNode.NUMBER ⟨0, 0⟩))] Value.undef s =
      (Except.error EvalErr.noFuel, s) := by
    show (match eval prims0 defaultConfig (fuel + 4)
        (ASTNode.RANGE (ASTNode.NUMBER (dOfInt 1)) (ASTNode.NUMBER (dOfInt 2))
          (some (ASTNode.NUMBER ⟨0, 0⟩))) s with
      | (Except.ok v, s1) => progSeq prims0 defaultConfig (fuel + 4) [] v s1
      | (Except.error e, s1) => (Except.error e, s1)) = _
    rw [h2]
  exact h3

/-- C6 (amended): the `RANGE` loop does terminate — with the produced
array — whenever the evaluated start, end and step are positive
integers (below `2^53`, with step nonzero), given fuel past the bound
difference; the unamended claim over *all* evaluated step values is
false by the `1:2:0` divergence. -/
theorem c6_range_terminates :
    ∀ (a b c fuel : Nat) (s : EvalState),
      1 ≤ a → 1 ≤ b → 1 ≤ c → a < 2 ^ 53 → b + c < 2 ^ 53 → b + c - a < fuel →
      ∃ l : List Dbl,
        rangeLoop fuel (dOfInt ((a : Nat) : Int)) (dOfInt ((b : Nat) : Int))
          (dOfInt ((c : Nat) : Int)) [] = some l
        ∧ evalRangeLoop fuel (Value.num (dOfInt ((a : Nat) : Int)))
            (Value.num (dOfInt ((b : Nat) : Int)))
            (Value.num (dOfInt ((c : Nat) : Int))) s =
          (Except.ok (Value.arr s.nextRef (l.map Value.num)),
            { s with nextRef := s.nextRef + 1 }) := by
  intro a b c fuel s ha hb hc ha2 hbc hf
  obtain ⟨l, hl⟩ := rangeLoop_pos_step_terminates fuel a b c [] ha hb hc ha2 hbc hf
  refine ⟨l, hl, ?_⟩
  unfold evalRangeLoop
  dsimp only
  rw [hl]

/-- C6 witness: the terminating range `1:5:1` with fuel `10`. -/
theorem c6_witness :
    ((1 : Nat) ≤ 1 ∧ (1 : Nat) ≤ 5 ∧ (1 : Nat) < 2 ^ 53 ∧ (5 : Nat) + 1 < 2 ^ 53
      ∧ (5 : Nat) + 1 - 1 < 10)
    ∧ ∃ l : List Dbl,
        rangeLoop 10 (dOfInt (((1 : Nat) : Nat) : Int)) (dOfInt (((5 : Nat) : Nat) : Int))
          (dOfInt (((1 : Nat) : Nat) : Int)) [] = some l
        ∧ evalRangeLoop 10 (Value.num (dOfInt (((1 : Nat) : Nat) : Int)))
            (Value.num (dOfInt (((5 : Nat) : Nat) : Int)))
            (Value.num (dOfInt (((1 : Nat) : Nat) : Int))) initState =
          (Except.ok (Value.arr initState.nextRef (l.map Value.num)),
            { initState with nextRef := initState.nextRef + 1 }) :=
  ⟨⟨by decide, by decide, by decide, by decide, by decide⟩,
    c6_range_terminates 1 5 1 10 initState (by decide) (by decide) (by decide)
      (by decide) (by decide) (by decide)⟩

end MathMcp
